import Mathlib

/-!
Shallow embedding of the block-group allocation subsystem
(`src/fs/btrfs/block-group.c`) and proofs about its specification.

Machine integers (u64 counters) are modelled as `Nat`; every theorem that
depends on a subtraction carries hypotheses ruling out underflow, which is
exactly the regime the kernel code operates in (its callers never free or
commit more bytes than were accounted).  Locking, tracepoints, list
bookkeeping (dirty/io/unused lists) and the superblock byte counter are
orthogonal to the claims and are not part of the state we track; each
embedded function mirrors the counter mutations and control flow of the C
function it is named after.
-/

namespace BtrfsBG

/-- Error codes used by the embedded functions (negative errnos in C). -/
inductive Errno
  | EAGAIN
  | ENOSPC
  | ETXTBSY
  | EEXIST
  | ENOENT
deriving DecidableEq, Repr

/-- Block group size classes (`enum btrfs_block_group_size_class`). -/
inductive SizeClass
  | szNone
  | small
  | medium
  | large
deriving DecidableEq, Repr

def SZ_128K : Nat := 131072

def SZ_8M : Nat := 8388608

def BTRFS_SUPER_INFO_OFFSET : Nat := 65536

/-- Embedding of `btrfs_calc_block_group_size_class` (block-group.c:4516). -/
def btrfs_calc_block_group_size_class (size : Nat) : SizeClass :=
  if size ≤ SZ_128K then .small
  else if size ≤ SZ_8M then .medium
  else .large

/-- Block-group type flags (`BTRFS_BLOCK_GROUP_*` bits of a u64 bitmask),
one Boolean field per bit the embedded code inspects.  `availSingle` is
`BTRFS_AVAIL_ALLOC_BIT_SINGLE`, the only extended-format bit. -/
structure Flags where
  data : Bool
  system : Bool
  metadata : Bool
  raid0 : Bool
  raid1 : Bool
  dup : Bool
  raid10 : Bool
  raid5 : Bool
  raid6 : Bool
  raid1c3 : Bool
  raid1c4 : Bool
  availSingle : Bool
deriving DecidableEq, Repr

/-- The all-zero bitmask. -/
def Flags.zero : Flags :=
  ⟨false, false, false, false, false, false, false, false, false, false, false, false⟩

/-- Bitwise or of two flag masks. -/
def Flags.or (a b : Flags) : Flags :=
  ⟨a.data || b.data, a.system || b.system, a.metadata || b.metadata,
   a.raid0 || b.raid0, a.raid1 || b.raid1, a.dup || b.dup,
   a.raid10 || b.raid10, a.raid5 || b.raid5, a.raid6 || b.raid6,
   a.raid1c3 || b.raid1c3, a.raid1c4 || b.raid1c4,
   a.availSingle || b.availSingle⟩

/-- Bitwise and of two flag masks. -/
def Flags.and (a b : Flags) : Flags :=
  ⟨a.data && b.data, a.system && b.system, a.metadata && b.metadata,
   a.raid0 && b.raid0, a.raid1 && b.raid1, a.dup && b.dup,
   a.raid10 && b.raid10, a.raid5 && b.raid5, a.raid6 && b.raid6,
   a.raid1c3 && b.raid1c3, a.raid1c4 && b.raid1c4,
   a.availSingle && b.availSingle⟩

/-- One block group (`struct btrfs_block_group`), restricted to the fields
the claims are about.  Counters are u64 in C, modelled as `Nat`; `ro` and
`swap_extents` are the read-only and swap-extents counters. -/
structure BlockGroup where
  start : Nat
  length : Nat
  flags : Flags
  used : Nat
  reserved : Nat
  pinned : Nat
  bytes_super : Nat
  zone_unusable : Nat
  delalloc_bytes : Nat
  ro : Nat
  swap_extents : Nat
  size_class : SizeClass
  alloc_offset : Nat
  zone_capacity : Nat
deriving DecidableEq, Repr

/-- Per-class aggregate accounting (`struct btrfs_space_info`), restricted
to the counters the embedded code mutates or reads. -/
structure SpaceInfo where
  flags : Flags
  total_bytes : Nat
  bytes_used : Nat
  bytes_reserved : Nat
  bytes_pinned : Nat
  bytes_readonly : Nat
  bytes_zone_unusable : Nat
  bytes_may_use : Nat
  disk_used : Nat
  max_extent_size : Nat
deriving DecidableEq, Repr

/-- Filesystem-level configuration the embedded functions branch on:
`zoned` is `btrfs_is_zoned(fs_info)`, and `canOvercommit` abstracts the
metadata overcommit policy `btrfs_can_overcommit` (space-info.c, outside
`src/`), taken as an oracle parameter because the claims only exercise the
data and forced paths. -/
structure FsConfig where
  zoned : Bool
  canOvercommit : SpaceInfo → Nat → Bool

/-- Embedding of `btrfs_is_block_group_data_only` (block-group.h): the
group carries the data bit and not the metadata bit. -/
def btrfs_is_block_group_data_only (bg : BlockGroup) : Bool :=
  bg.flags.data && !bg.flags.metadata

/-- Embedding of `btrfs_block_group_should_use_size_class`
(block-group.c:4577). -/
def btrfs_block_group_should_use_size_class (cfg : FsConfig) (bg : BlockGroup) : Bool :=
  !cfg.zoned && btrfs_is_block_group_data_only bg

/-- Embedding of `btrfs_use_block_group_size_class` (block-group.c:4544);
returns the updated group, or `EAGAIN` on a size-class race without
`force_wrong_size_class`. -/
def btrfs_use_block_group_size_class (bg : BlockGroup) (size_class : SizeClass)
    (force_wrong_size_class : Bool) : Except Errno BlockGroup :=
  if bg.size_class = size_class then .ok bg
  else if bg.size_class ≠ SizeClass.szNone then
    (if force_wrong_size_class then .ok bg else .error .EAGAIN)
  else .ok { bg with size_class := size_class }

/-- Embedding of `btrfs_add_reserved_bytes` (block-group.c:3711).  On
error the C function jumps to `out` before any counter mutation, so the
`Except.error` result stands for the unchanged pair of states. -/
def btrfs_add_reserved_bytes (cfg : FsConfig) (bg : BlockGroup) (si : SpaceInfo)
    (ram_bytes num_bytes : Nat) (delalloc : Bool) (force_wrong_size_class : Bool) :
    Except Errno (BlockGroup × SpaceInfo) :=
  if bg.ro ≠ 0 then .error .EAGAIN
  else
    match (if btrfs_block_group_should_use_size_class cfg bg then
        btrfs_use_block_group_size_class bg
          (btrfs_calc_block_group_size_class num_bytes) force_wrong_size_class
      else .ok bg) with
    | .error e => .error e
    | .ok bg =>
      .ok ({ bg with
              reserved := bg.reserved + num_bytes,
              delalloc_bytes :=
                if delalloc then bg.delalloc_bytes + num_bytes else bg.delalloc_bytes },
           { si with
              bytes_reserved := si.bytes_reserved + num_bytes,
              bytes_may_use := si.bytes_may_use - ram_bytes })

/-- Modelled from the spec: `mult_perc` is a helper outside `src/`
(fs/btrfs/misc.h) computing a percentage of a u64, `num * percent / 100`. -/
def mult_perc (num percent : Nat) : Nat :=
  num * percent / 100

/-- Embedding of `should_reclaim_block_group` (block-group.c:1749); the
reclaim threshold percentage is passed explicitly instead of being read
from the space info. -/
def should_reclaim_block_group (reclaim_thresh : Nat) (bg : BlockGroup)
    (bytes_freed : Nat) : Bool :=
  if reclaim_thresh = 0 then false
  else
    let thresh := mult_perc bg.length reclaim_thresh
    if bg.used + bytes_freed < thresh then false
    else if thresh ≤ bg.used then false
    else true

/-- Embedding of the counter core of `btrfs_update_block_group`
(block-group.c:3595), from the point where the group has been looked up:
lines 3642-3667 plus the reclaim decision of line 3660.  The superblock
byte counter, dirty-list and unused-list bookkeeping touch none of the
embedded counters.  `factor` is `btrfs_bg_type_to_factor(cache->flags)`. -/
def btrfs_update_block_group (reclaim_thresh : Nat) (bg : BlockGroup) (si : SpaceInfo)
    (num_bytes : Nat) (alloc : Bool) (factor : Nat) :
    BlockGroup × SpaceInfo × Bool :=
  if alloc then
    ({ bg with used := bg.used + num_bytes, reserved := bg.reserved - num_bytes },
     { si with bytes_reserved := si.bytes_reserved - num_bytes,
               bytes_used := si.bytes_used + num_bytes,
               disk_used := si.disk_used + num_bytes * factor },
     false)
  else
    ({ bg with used := bg.used - num_bytes, pinned := bg.pinned + num_bytes },
     { si with bytes_pinned := si.bytes_pinned + num_bytes,
               bytes_used := si.bytes_used - num_bytes,
               disk_used := si.disk_used - num_bytes * factor },
     should_reclaim_block_group reclaim_thresh
       { bg with used := bg.used - num_bytes } num_bytes)

/-- Embedding of `btrfs_free_reserved_bytes` (block-group.c:3765). -/
def btrfs_free_reserved_bytes (bg : BlockGroup) (si : SpaceInfo)
    (num_bytes : Nat) (delalloc : Bool) : BlockGroup × SpaceInfo :=
  let si := if bg.ro ≠ 0 then
      { si with bytes_readonly := si.bytes_readonly + num_bytes } else si
  ({ bg with
      reserved := bg.reserved - num_bytes,
      delalloc_bytes := if delalloc then bg.delalloc_bytes - num_bytes else bg.delalloc_bytes },
   { si with
      bytes_reserved := si.bytes_reserved - num_bytes,
      max_extent_size := 0 })

/-- Modelled from the spec: `btrfs_space_info_used` lives outside `src/`
(space-info.c); following the SpaceInfo data model of section 3, class-wide
usage is the sum of the used, reserved, pinned, readonly and zone-unusable
counters, plus the soft-reserved `bytes_may_use` when requested. -/
def btrfs_space_info_used (si : SpaceInfo) (may_use_included : Bool) : Nat :=
  si.bytes_used + si.bytes_reserved + si.bytes_pinned + si.bytes_readonly +
    si.bytes_zone_unusable + (if may_use_included then si.bytes_may_use else 0)

/-- Free bytes of a group in the subtraction order of `inc_block_group_ro`
(block-group.c:1355): length minus reserved, pinned, superblock, zone
unusable and used bytes. -/
def ro_num_bytes (bg : BlockGroup) : Nat :=
  bg.length - bg.reserved - bg.pinned - bg.bytes_super - bg.zone_unusable - bg.used

/-- Admission test of `inc_block_group_ro` (block-group.c:1362): forced
requests always pass; data groups never overcommit, so the class-wide
usage plus the candidate bytes must stay within the class capacity;
metadata and system groups consult the overcommit policy. -/
def ro_admitted (cfg : FsConfig) (bg : BlockGroup) (si : SpaceInfo)
    (force : Bool) : Bool :=
  if force then true
  else if si.flags.data then
    decide (btrfs_space_info_used si true + ro_num_bytes bg ≤ si.total_bytes)
  else
    cfg.canOvercommit si (ro_num_bytes bg)

/-- Embedding of `inc_block_group_ro` (block-group.c:1335).  On error the
C function jumps to `out` before any counter mutation, so the error result
stands for the unchanged pair of states.  The sequential mutations of the
success path (credit the free bytes to the class readonly counter, then on
zoned filesystems migrate the zone-unusable bytes to readonly as well,
then increment the counter) are written as one state. -/
def inc_block_group_ro (cfg : FsConfig) (bg : BlockGroup) (si : SpaceInfo)
    (force : Bool) : Except Errno (BlockGroup × SpaceInfo) :=
  if bg.swap_extents ≠ 0 then
    .error .ETXTBSY
  else if bg.ro ≠ 0 then
    .ok ({ bg with ro := bg.ro + 1 }, si)
  else if ro_admitted cfg bg si force then
    (if cfg.zoned then
      .ok ({ bg with zone_unusable := 0, ro := bg.ro + 1 },
           { si with
              bytes_readonly :=
                si.bytes_readonly + ro_num_bytes bg + bg.zone_unusable,
              bytes_zone_unusable := si.bytes_zone_unusable - bg.zone_unusable })
    else
      .ok ({ bg with ro := bg.ro + 1 },
           { si with bytes_readonly := si.bytes_readonly + ro_num_bytes bg }))
  else
    .error .ENOSPC

/-- Zone-unusable bytes recomputed by `btrfs_dec_block_group_ro` when the
counter returns to zero on a zoned filesystem (block-group.c:3018). -/
def dec_ro_zone_unusable (bg : BlockGroup) : Nat :=
  (bg.alloc_offset - bg.used) + (bg.length - bg.zone_capacity)

/-- Embedding of `btrfs_dec_block_group_ro` (block-group.c:3006).  The
`BUG_ON(!cache->ro)` guard is modelled by returning `none` when the
read-only counter is already zero.  When the counter returns to zero the
free bytes (recomputed after the zoned migration, which first moves the
recomputed zone-unusable bytes back out of readonly) leave the class
readonly counter. -/
def btrfs_dec_block_group_ro (cfg : FsConfig) (bg : BlockGroup) (si : SpaceInfo) :
    Option (BlockGroup × SpaceInfo) :=
  if bg.ro = 0 then none
  else if bg.ro - 1 = 0 then
    (if cfg.zoned then
      some ({ bg with ro := bg.ro - 1, zone_unusable := dec_ro_zone_unusable bg },
            { si with
               bytes_zone_unusable :=
                 si.bytes_zone_unusable + dec_ro_zone_unusable bg,
               bytes_readonly :=
                 si.bytes_readonly - dec_ro_zone_unusable bg -
                   ro_num_bytes { bg with zone_unusable := dec_ro_zone_unusable bg } })
    else
      some ({ bg with ro := bg.ro - 1 },
            { si with bytes_readonly := si.bytes_readonly - ro_num_bytes bg }))
  else
    some ({ bg with ro := bg.ro - 1 }, si)

/-- Embedding of `btrfs_inc_block_group_swap_extents` (block-group.c:4493);
the Boolean result is the C return value. -/
def btrfs_inc_block_group_swap_extents (bg : BlockGroup) : Bool × BlockGroup :=
  if bg.ro ≠ 0 then (false, bg)
  else (true, { bg with swap_extents := bg.swap_extents + 1 })

/-- Embedding of `btrfs_dec_block_group_swap_extents` (block-group.c:4507);
the function asserts `!bg->ro` and `bg->swap_extents >= amount` and then
subtracts. -/
def btrfs_dec_block_group_swap_extents (bg : BlockGroup) (amount : Nat) : BlockGroup :=
  { bg with swap_extents := bg.swap_extents - amount }

/-- Modelled from the spec: the transaction-commit unpin path
(`unpin_extent_range`, fs/btrfs/extent-tree.c, outside `src/`) returns
bytes that frees pinned back to the free pool once "the owning transaction
boundary is crossed" (section 4.4): it removes them from the group and
class pinned counters, crediting the class readonly counter instead when
the group is read-only. -/
def unpin_block_group (bg : BlockGroup) (si : SpaceInfo) (num_bytes : Nat) :
    BlockGroup × SpaceInfo :=
  ({ bg with pinned := bg.pinned - num_bytes },
   if bg.ro ≠ 0 then
     { si with bytes_pinned := si.bytes_pinned - num_bytes,
               bytes_readonly := si.bytes_readonly + num_bytes }
   else
     { si with bytes_pinned := si.bytes_pinned - num_bytes })

/-- Bytes of a group currently free for new reservations: its length minus
used, reserved, pinned, superblock-excluded and zone-unusable bytes.  This
is what the free-space index of a fully cached group can hand out, and the
quantity `inc_block_group_ro` calls `num_bytes`. -/
def freeBytes (bg : BlockGroup) : Nat :=
  bg.length - bg.used - bg.reserved - bg.pinned - bg.bytes_super - bg.zone_unusable

/-- One public operation on a block group and its space info, as the
callers of block-group.c invoke them.  Guards record the caller contracts
visible in the source: a reservation attaches only to an extent found in
the free-space index (so it fits in `freeBytes`) after a soft reservation
of `ram_bytes` was granted; `btrfs_update_block_group` commits only bytes
previously reserved (alloc) or frees only bytes previously committed
(dealloc); the unpin path unpins only pinned bytes; swap-extents holders
decrement only what they incremented. -/
inductive Step (cfg : FsConfig) :
    BlockGroup × SpaceInfo → BlockGroup × SpaceInfo → Prop
  | reserve (bg : BlockGroup) (si : SpaceInfo) (ram_bytes num_bytes : Nat)
      (delalloc force_wrong_size_class : Bool) (st' : BlockGroup × SpaceInfo)
      (hfit : num_bytes ≤ freeBytes bg)
      (hram : ram_bytes ≤ si.bytes_may_use)
      (hok : btrfs_add_reserved_bytes cfg bg si ram_bytes num_bytes delalloc
               force_wrong_size_class = .ok st') :
      Step cfg (bg, si) st'
  | commit (bg : BlockGroup) (si : SpaceInfo) (num_bytes factor thresh : Nat)
      (hres : num_bytes ≤ bg.reserved) :
      Step cfg (bg, si)
        ((btrfs_update_block_group thresh bg si num_bytes true factor).1,
         (btrfs_update_block_group thresh bg si num_bytes true factor).2.1)
  | free (bg : BlockGroup) (si : SpaceInfo) (num_bytes factor thresh : Nat)
      (hused : num_bytes ≤ bg.used) :
      Step cfg (bg, si)
        ((btrfs_update_block_group thresh bg si num_bytes false factor).1,
         (btrfs_update_block_group thresh bg si num_bytes false factor).2.1)
  | unpin (bg : BlockGroup) (si : SpaceInfo) (num_bytes : Nat)
      (hpin : num_bytes ≤ bg.pinned) :
      Step cfg (bg, si) (unpin_block_group bg si num_bytes)
  | free_reserved (bg : BlockGroup) (si : SpaceInfo) (num_bytes : Nat)
      (delalloc : Bool) (hres : num_bytes ≤ bg.reserved) :
      Step cfg (bg, si) (btrfs_free_reserved_bytes bg si num_bytes delalloc)
  | inc_ro (bg : BlockGroup) (si : SpaceInfo) (force : Bool)
      (st' : BlockGroup × SpaceInfo)
      (hok : inc_block_group_ro cfg bg si force = .ok st') :
      Step cfg (bg, si) st'
  | dec_ro (bg : BlockGroup) (si : SpaceInfo) (st' : BlockGroup × SpaceInfo)
      (hok : btrfs_dec_block_group_ro cfg bg si = some st') :
      Step cfg (bg, si) st'
  | inc_swap (bg : BlockGroup) (si : SpaceInfo) :
      Step cfg (bg, si) ((btrfs_inc_block_group_swap_extents bg).2, si)
  | dec_swap (bg : BlockGroup) (si : SpaceInfo) (amount : Nat)
      (hpos : 0 < amount) (hle : amount ≤ bg.swap_extents) :
      Step cfg (bg, si) (btrfs_dec_block_group_swap_extents bg amount, si)

/-- Reachability through the public operations. -/
def Reach (cfg : FsConfig) :
    BlockGroup × SpaceInfo → BlockGroup × SpaceInfo → Prop :=
  Relation.ReflTransGen (Step cfg)

/-- The per-group accounting invariant of the spec:
used + reserved + pinned + bytes_super + zone_unusable never exceeds the
length of the group. -/
def bgInvariant (bg : BlockGroup) : Prop :=
  bg.used + bg.reserved + bg.pinned + bg.bytes_super + bg.zone_unusable ≤ bg.length

/-- The implicit mutual-exclusion invariant between the read-only counter
and the swap-extents counter. -/
def roSwapExcl (bg : BlockGroup) : Prop :=
  bg.ro = 0 ∨ bg.swap_extents = 0

/-- A successful size-class admission either leaves the group unchanged or
only fixes its size class. -/
theorem btrfs_use_block_group_size_class_ok {bg : BlockGroup} {sc : SizeClass}
    {force : Bool} {bg' : BlockGroup}
    (h : btrfs_use_block_group_size_class bg sc force = .ok bg') :
    bg' = bg ∨ bg' = { bg with size_class := sc } := by
  unfold btrfs_use_block_group_size_class at h
  split at h
  · exact Or.inl (Except.ok.inj h).symm
  · split at h
    · split at h
      · exact Or.inl (Except.ok.inj h).symm
      · exact absurd h (by simp)
    · exact Or.inr (Except.ok.inj h).symm

/-- Shape of a successful `btrfs_add_reserved_bytes`: the read-only
counter was zero, `num_bytes` was added to the reservations of the group
and of the class, `ram_bytes` left the soft-reserved pool, and no other
counter moved (the size class may have been fixed). -/
theorem btrfs_add_reserved_bytes_ok {cfg : FsConfig} {bg : BlockGroup}
    {si : SpaceInfo} {ram_bytes num_bytes : Nat} {delalloc force : Bool}
    {bg' : BlockGroup} {si' : SpaceInfo}
    (h : btrfs_add_reserved_bytes cfg bg si ram_bytes num_bytes delalloc force
           = .ok (bg', si')) :
    bg.ro = 0 ∧
    bg'.used = bg.used ∧ bg'.reserved = bg.reserved + num_bytes ∧
    bg'.pinned = bg.pinned ∧ bg'.bytes_super = bg.bytes_super ∧
    bg'.zone_unusable = bg.zone_unusable ∧ bg'.length = bg.length ∧
    bg'.ro = bg.ro ∧ bg'.swap_extents = bg.swap_extents ∧
    bg'.delalloc_bytes =
      (if delalloc then bg.delalloc_bytes + num_bytes else bg.delalloc_bytes) ∧
    si' = { si with bytes_reserved := si.bytes_reserved + num_bytes,
                    bytes_may_use := si.bytes_may_use - ram_bytes } := by
  unfold btrfs_add_reserved_bytes at h
  split at h
  · exact absurd h (by simp)
  · rename_i hro
    split at h
    · exact absurd h (by simp)
    · rename_i bg₂ hsz
      have hshape : bg₂ = bg ∨ bg₂ =
          { bg with size_class := (btrfs_calc_block_group_size_class num_bytes) } := by
        split at hsz
        · exact btrfs_use_block_group_size_class_ok hsz
        · exact Or.inl (Except.ok.inj hsz).symm
      have hpair := Except.ok.inj h
      have hbg' : bg' = { bg₂ with
          reserved := bg₂.reserved + num_bytes,
          delalloc_bytes :=
            if delalloc then bg₂.delalloc_bytes + num_bytes else bg₂.delalloc_bytes } :=
        (congrArg Prod.fst hpair).symm
      have hsi' : si' = { si with bytes_reserved := si.bytes_reserved + num_bytes,
                                  bytes_may_use := si.bytes_may_use - ram_bytes } :=
        (congrArg Prod.snd hpair).symm
      rcases hshape with hshape | hshape <;>
        simp_all [not_ne_iff.mp hro]

/-- Shape of a successful `inc_block_group_ro`: the swap-extents counter
was zero, the read-only counter went up by one, and no group byte counter
moved except that zoned configurations may zero `zone_unusable`. -/
theorem inc_block_group_ro_ok {cfg : FsConfig} {bg : BlockGroup} {si : SpaceInfo}
    {force : Bool} {bg' : BlockGroup} {si' : SpaceInfo}
    (h : inc_block_group_ro cfg bg si force = .ok (bg', si')) :
    bg.swap_extents = 0 ∧ bg'.ro = bg.ro + 1 ∧
    bg'.swap_extents = bg.swap_extents ∧
    bg'.used = bg.used ∧ bg'.reserved = bg.reserved ∧ bg'.pinned = bg.pinned ∧
    bg'.bytes_super = bg.bytes_super ∧ bg'.length = bg.length ∧
    (bg'.zone_unusable = bg.zone_unusable ∨
      (cfg.zoned = true ∧ bg'.zone_unusable = 0)) := by
  unfold inc_block_group_ro at h
  split at h
  · exact absurd h (by simp)
  rename_i hswap
  refine ⟨not_ne_iff.mp hswap, ?_⟩
  split at h
  · have hbg' : bg' = { bg with ro := bg.ro + 1 } :=
      (congrArg Prod.fst (Except.ok.inj h)).symm
    subst hbg'
    simp
  split at h
  · split at h
    · have hbg' : bg' = { bg with zone_unusable := 0, ro := bg.ro + 1 } :=
        (congrArg Prod.fst (Except.ok.inj h)).symm
      subst hbg'
      rename_i hzoned
      simp [hzoned]
    · have hbg' : bg' = { bg with ro := bg.ro + 1 } :=
        (congrArg Prod.fst (Except.ok.inj h)).symm
      subst hbg'
      simp
  · exact absurd h (by simp)

/-- Shape of a successful `btrfs_dec_block_group_ro` in the non-zoned
configuration: the read-only counter was nonzero and went down by one and
no group byte counter moved. -/
theorem btrfs_dec_block_group_ro_ok {cfg : FsConfig} {bg : BlockGroup}
    {si : SpaceInfo} {bg' : BlockGroup} {si' : SpaceInfo}
    (hz : cfg.zoned = false)
    (h : btrfs_dec_block_group_ro cfg bg si = some (bg', si')) :
    bg.ro ≠ 0 ∧ bg'.ro = bg.ro - 1 ∧ bg'.swap_extents = bg.swap_extents ∧
    bg'.used = bg.used ∧ bg'.reserved = bg.reserved ∧ bg'.pinned = bg.pinned ∧
    bg'.bytes_super = bg.bytes_super ∧ bg'.length = bg.length ∧
    bg'.zone_unusable = bg.zone_unusable := by
  unfold btrfs_dec_block_group_ro at h
  split at h
  · exact absurd h (by simp)
  rename_i hro
  refine ⟨hro, ?_⟩
  rw [hz] at h
  split at h
  · simp only [Bool.false_eq_true, if_false] at h
    have hbg' : bg' = { bg with ro := bg.ro - 1 } :=
      (congrArg Prod.fst (Option.some.inj h)).symm
    subst hbg'
    simp
  · have hbg' : bg' = { bg with ro := bg.ro - 1 } :=
      (congrArg Prod.fst (Option.some.inj h)).symm
    subst hbg'
    simp

/-- Shape of `btrfs_dec_block_group_ro` for the read-only and swap-extents
counters alone, in any configuration. -/
theorem btrfs_dec_block_group_ro_ok_ro {cfg : FsConfig} {bg : BlockGroup}
    {si : SpaceInfo} {bg' : BlockGroup} {si' : SpaceInfo}
    (h : btrfs_dec_block_group_ro cfg bg si = some (bg', si')) :
    bg.ro ≠ 0 ∧ bg'.ro = bg.ro - 1 ∧ bg'.swap_extents = bg.swap_extents := by
  unfold btrfs_dec_block_group_ro at h
  split at h
  · exact absurd h (by simp)
  rename_i hro
  refine ⟨hro, ?_⟩
  split at h
  · split at h
    · have hbg' : bg' = { bg with ro := bg.ro - 1, zone_unusable := (dec_ro_zone_unusable bg) } :=
        (congrArg Prod.fst (Option.some.inj h)).symm
      subst hbg'
      simp
    · have hbg' : bg' = { bg with ro := bg.ro - 1 } :=
        (congrArg Prod.fst (Option.some.inj h)).symm
      subst hbg'
      simp
  · have hbg' : bg' = { bg with ro := bg.ro - 1 } :=
      (congrArg Prod.fst (Option.some.inj h)).symm
    subst hbg'
    simp

/-- Every public operation preserves the per-group accounting invariant in
the non-zoned configuration. -/
theorem step_preserves_bgInvariant {cfg : FsConfig}
    {s t : BlockGroup × SpaceInfo} (hz : cfg.zoned = false)
    (hstep : Step cfg s t) (hinv : bgInvariant s.1) : bgInvariant t.1 := by
  cases hstep with
  | reserve bg si ram_bytes num_bytes delalloc force st' hfit hram hok =>
    obtain ⟨tb, ts⟩ := t
    obtain ⟨-, h1, h2, h3, h4, h5, h6, -, -, -, -⟩ := btrfs_add_reserved_bytes_ok hok
    have hinv' : bg.used + bg.reserved + bg.pinned + bg.bytes_super +
        bg.zone_unusable ≤ bg.length := hinv
    show tb.used + tb.reserved + tb.pinned + tb.bytes_super +
        tb.zone_unusable ≤ tb.length
    unfold freeBytes at hfit
    omega
  | commit bg si num_bytes factor thresh hres =>
    have hinv' : bg.used + bg.reserved + bg.pinned + bg.bytes_super +
        bg.zone_unusable ≤ bg.length := hinv
    show bgInvariant (btrfs_update_block_group thresh bg si num_bytes true factor).1
    unfold bgInvariant btrfs_update_block_group
    simp only [if_true]
    omega
  | free bg si num_bytes factor thresh hused =>
    have hinv' : bg.used + bg.reserved + bg.pinned + bg.bytes_super +
        bg.zone_unusable ≤ bg.length := hinv
    show bgInvariant (btrfs_update_block_group thresh bg si num_bytes false factor).1
    unfold bgInvariant btrfs_update_block_group
    simp only [Bool.false_eq_true, if_false]
    omega
  | unpin bg si num_bytes hpin =>
    have hinv' : bg.used + bg.reserved + bg.pinned + bg.bytes_super +
        bg.zone_unusable ≤ bg.length := hinv
    show bgInvariant (unpin_block_group bg si num_bytes).1
    unfold bgInvariant unpin_block_group
    simp only
    omega
  | free_reserved bg si num_bytes delalloc hres =>
    have hinv' : bg.used + bg.reserved + bg.pinned + bg.bytes_super +
        bg.zone_unusable ≤ bg.length := hinv
    show bgInvariant (btrfs_free_reserved_bytes bg si num_bytes delalloc).1
    unfold bgInvariant btrfs_free_reserved_bytes
    simp only
    omega
  | inc_ro bg si force st' hok =>
    obtain ⟨tb, ts⟩ := t
    obtain ⟨-, -, -, h4, h5, h6, h7, h8, h9⟩ := inc_block_group_ro_ok hok
    have hinv' : bg.used + bg.reserved + bg.pinned + bg.bytes_super +
        bg.zone_unusable ≤ bg.length := hinv
    show tb.used + tb.reserved + tb.pinned + tb.bytes_super +
        tb.zone_unusable ≤ tb.length
    rcases h9 with h9 | ⟨hzz, -⟩
    · omega
    · rw [hz] at hzz; exact absurd hzz (by simp)
  | dec_ro bg si st' hok =>
    obtain ⟨tb, ts⟩ := t
    obtain ⟨-, -, -, h4, h5, h6, h7, h8, h9⟩ := btrfs_dec_block_group_ro_ok hz hok
    have hinv' : bg.used + bg.reserved + bg.pinned + bg.bytes_super +
        bg.zone_unusable ≤ bg.length := hinv
    show tb.used + tb.reserved + tb.pinned + tb.bytes_super +
        tb.zone_unusable ≤ tb.length
    omega
  | inc_swap bg si =>
    have hinv' : bg.used + bg.reserved + bg.pinned + bg.bytes_super +
        bg.zone_unusable ≤ bg.length := hinv
    show bgInvariant (btrfs_inc_block_group_swap_extents bg).2
    unfold bgInvariant btrfs_inc_block_group_swap_extents
    split <;> simp only <;> omega
  | dec_swap bg si amount hpos hle =>
    have hinv' : bg.used + bg.reserved + bg.pinned + bg.bytes_super +
        bg.zone_unusable ≤ bg.length := hinv
    show bgInvariant (btrfs_dec_block_group_swap_extents bg amount)
    unfold bgInvariant btrfs_dec_block_group_swap_extents
    simp only
    omega

/-- Every public operation preserves the read-only / swap-extents
mutual-exclusion invariant, in any configuration. -/
theorem step_preserves_roSwapExcl {cfg : FsConfig}
    {s t : BlockGroup × SpaceInfo}
    (hstep : Step cfg s t) (hinv : roSwapExcl s.1) : roSwapExcl t.1 := by
  cases hstep with
  | reserve bg si ram_bytes num_bytes delalloc force st' hfit hram hok =>
    obtain ⟨tb, ts⟩ := t
    obtain ⟨h0, -, -, -, -, -, -, h8, h9, -, -⟩ := btrfs_add_reserved_bytes_ok hok
    have hinv' : bg.ro = 0 ∨ bg.swap_extents = 0 := hinv
    show tb.ro = 0 ∨ tb.swap_extents = 0
    rw [h8, h9]
    exact hinv'
  | commit bg si num_bytes factor thresh hres =>
    have hinv' : bg.ro = 0 ∨ bg.swap_extents = 0 := hinv
    show roSwapExcl (btrfs_update_block_group thresh bg si num_bytes true factor).1
    unfold roSwapExcl btrfs_update_block_group
    simpa using hinv'
  | free bg si num_bytes factor thresh hused =>
    have hinv' : bg.ro = 0 ∨ bg.swap_extents = 0 := hinv
    show roSwapExcl (btrfs_update_block_group thresh bg si num_bytes false factor).1
    unfold roSwapExcl btrfs_update_block_group
    simpa using hinv'
  | unpin bg si num_bytes hpin =>
    have hinv' : bg.ro = 0 ∨ bg.swap_extents = 0 := hinv
    show roSwapExcl (unpin_block_group bg si num_bytes).1
    unfold roSwapExcl unpin_block_group
    simpa using hinv'
  | free_reserved bg si num_bytes delalloc hres =>
    have hinv' : bg.ro = 0 ∨ bg.swap_extents = 0 := hinv
    show roSwapExcl (btrfs_free_reserved_bytes bg si num_bytes delalloc).1
    unfold roSwapExcl btrfs_free_reserved_bytes
    simpa using hinv'
  | inc_ro bg si force st' hok =>
    obtain ⟨tb, ts⟩ := t
    obtain ⟨h0, h2, h3, -⟩ := inc_block_group_ro_ok hok
    show tb.ro = 0 ∨ tb.swap_extents = 0
    right
    rw [h3, h0]
  | dec_ro bg si st' hok =>
    obtain ⟨tb, ts⟩ := t
    obtain ⟨h0, h2, h3⟩ := btrfs_dec_block_group_ro_ok_ro hok
    have hinv' : bg.ro = 0 ∨ bg.swap_extents = 0 := hinv
    show tb.ro = 0 ∨ tb.swap_extents = 0
    rcases hinv' with hinv' | hinv'
    · exact absurd hinv' h0
    · right; rw [h3, hinv']
  | inc_swap bg si =>
    have hinv' : bg.ro = 0 ∨ bg.swap_extents = 0 := hinv
    show roSwapExcl (btrfs_inc_block_group_swap_extents bg).2
    unfold roSwapExcl btrfs_inc_block_group_swap_extents
    split
    · simpa using hinv'
    · rename_i hro
      simp [not_ne_iff.mp hro]
  | dec_swap bg si amount hpos hle =>
    have hinv' : bg.ro = 0 ∨ bg.swap_extents = 0 := hinv
    show roSwapExcl (btrfs_dec_block_group_swap_extents bg amount)
    unfold roSwapExcl btrfs_dec_block_group_swap_extents
    rcases hinv' with hinv' | hinv'
    · left; simpa using hinv'
    · right; simp [hinv']

instance (bg : BlockGroup) : Decidable (bgInvariant bg) :=
  Nat.decLe _ _

instance (bg : BlockGroup) : Decidable (roSwapExcl bg) :=
  inferInstanceAs (Decidable (bg.ro = 0 ∨ bg.swap_extents = 0))

/-- Example configuration: a non-zoned filesystem whose overcommit policy
always admits. -/
def exampleCfg : FsConfig := ⟨false, fun _ _ => true⟩

/-- Example flags: a plain data profile. -/
def exampleFlags : Flags := { Flags.zero with data := true }

/-- Example fresh 1 GiB data block group at offset 1 MiB. -/
def exampleBG : BlockGroup :=
  ⟨1048576, 1073741824, exampleFlags, 0, 0, 0, 0, 0, 0, 0, 0, .szNone, 0, 0⟩

/-- Example space info: a 1 GiB data class with the full capacity
soft-reserved. -/
def exampleSI : SpaceInfo :=
  ⟨exampleFlags, 1073741824, 0, 0, 0, 0, 0, 1073741824, 0, 0⟩

/-- The example group after reserving 100 MiB once. -/
def exampleBG1 : BlockGroup :=
  { exampleBG with reserved := 104857600, size_class := .large }

/-- The example space info after reserving 100 MiB once. -/
def exampleSI1 : SpaceInfo :=
  { exampleSI with bytes_reserved := 104857600,
                   bytes_may_use := 1073741824 - 104857600 }

/-- C1: in every state reachable from a state satisfying the accounting
invariant through the public operations (reserve, commit, free, pin,
unpin, set and clear read-only, swap-extents), the sum
used + reserved + pinned + bytes_super + zone_unusable is at most the
length of the group (non-zoned configuration). -/
theorem C1_accounting_invariant (cfg : FsConfig)
    (s t : BlockGroup × SpaceInfo) (hz : cfg.zoned = false)
    (h0 : bgInvariant s.1) (hreach : Reach cfg s t) : bgInvariant t.1 := by
  induction hreach with
  | refl => exact h0
  | tail hr hstep ih => exact step_preserves_bgInvariant hz hstep ih

/-- Witness for C1 at a concrete input: a fresh 1 GiB data group, one
100 MiB reservation step. -/
theorem C1_accounting_invariant_witness :
    exampleCfg.zoned = false ∧ bgInvariant exampleBG ∧ bgInvariant exampleBG1 :=
  ⟨rfl, by decide,
   C1_accounting_invariant exampleCfg (exampleBG, exampleSI)
     (exampleBG1, exampleSI1) rfl (by decide)
     (Relation.ReflTransGen.single
       (Step.reserve exampleBG exampleSI 104857600 104857600 false false
         (exampleBG1, exampleSI1) (by decide) (by decide) (by rfl)))⟩

/-- The size class computed for an allocation is never the untyped class. -/
theorem btrfs_calc_block_group_size_class_ne_none (n : Nat) :
    btrfs_calc_block_group_size_class n ≠ SizeClass.szNone := by
  unfold btrfs_calc_block_group_size_class
  by_cases h1 : n ≤ SZ_128K
  · simp [h1]
  · by_cases h2 : n ≤ SZ_8M <;> simp [h1, h2]

/-- A reservation on a writable group whose size class is untyped or
already matches the allocation succeeds, with the exact counter updates of
the source. -/
theorem btrfs_add_reserved_bytes_succeeds (cfg : FsConfig) (bg : BlockGroup)
    (si : SpaceInfo) (ram_bytes num_bytes : Nat) (delalloc force : Bool)
    (hro : bg.ro = 0)
    (hsz : bg.size_class = SizeClass.szNone ∨
           bg.size_class = btrfs_calc_block_group_size_class num_bytes) :
    btrfs_add_reserved_bytes cfg bg si ram_bytes num_bytes delalloc force =
      .ok ({ bg with
              size_class :=
                (if btrfs_block_group_should_use_size_class cfg bg then
                  btrfs_calc_block_group_size_class num_bytes else bg.size_class),
              reserved := bg.reserved + num_bytes,
              delalloc_bytes :=
                if delalloc then bg.delalloc_bytes + num_bytes else bg.delalloc_bytes },
           { si with
              bytes_reserved := si.bytes_reserved + num_bytes,
              bytes_may_use := si.bytes_may_use - ram_bytes }) := by
  unfold btrfs_add_reserved_bytes
  rw [if_neg (by simp [hro])]
  by_cases hsu : btrfs_block_group_should_use_size_class cfg bg
  · rw [if_pos hsu]
    unfold btrfs_use_block_group_size_class
    rcases hsz with hsz | hsz
    · rw [if_neg (by rw [hsz]; exact
        (btrfs_calc_block_group_size_class_ne_none num_bytes).symm)]
      rw [if_neg (by simp [hsz])]
      simp [hsu]
    · rw [if_pos hsz]
      simp [hsu, ← hsz]
  · rw [if_neg hsu]
    simp [hsu]

/-- C2: a reservation against a read-only group fails with `EAGAIN` (the
source jumps to `out` before any counter mutation, so the error result
carries the unchanged states); against a writable group with an admissible
size class it adds `num_bytes` to the group's `reserved` and the class's
`bytes_reserved` and subtracts `ram_bytes` from the class's
`bytes_may_use`. -/
theorem C2_reserve_ro_refusal (cfg : FsConfig) (bg : BlockGroup) (si : SpaceInfo)
    (ram_bytes num_bytes : Nat) (delalloc force : Bool)
    (hram : ram_bytes ≤ si.bytes_may_use) :
    (bg.ro ≠ 0 →
      btrfs_add_reserved_bytes cfg bg si ram_bytes num_bytes delalloc force =
        .error .EAGAIN) ∧
    (bg.ro = 0 →
      (bg.size_class = SizeClass.szNone ∨
        bg.size_class = btrfs_calc_block_group_size_class num_bytes) →
      ∃ bg' si',
        btrfs_add_reserved_bytes cfg bg si ram_bytes num_bytes delalloc force =
          .ok (bg', si') ∧
        bg'.reserved = bg.reserved + num_bytes ∧
        bg'.used = bg.used ∧
        si'.bytes_reserved = si.bytes_reserved + num_bytes ∧
        si'.bytes_may_use + ram_bytes = si.bytes_may_use) := by
  constructor
  · intro h
    simp [btrfs_add_reserved_bytes, h]
  · intro hro hsz
    refine ⟨_, _, btrfs_add_reserved_bytes_succeeds cfg bg si ram_bytes num_bytes
      delalloc force hro hsz, by simp, by simp, by simp, by simp; omega⟩

/-- Witness for C2 at concrete inputs: the example group with the
read-only counter raised refuses a reservation; the fresh example group
accepts one. -/
theorem C2_reserve_ro_refusal_witness :
    (100 ≤ exampleSI.bytes_may_use ∧ { exampleBG with ro := 1 }.ro ≠ 0 ∧
      btrfs_add_reserved_bytes exampleCfg { exampleBG with ro := 1 } exampleSI
        100 100 false false = .error .EAGAIN) ∧
    (104857600 ≤ exampleSI.bytes_may_use ∧ exampleBG.ro = 0 ∧
      ∃ bg' si',
        btrfs_add_reserved_bytes exampleCfg exampleBG exampleSI
          104857600 104857600 false false = .ok (bg', si') ∧
        bg'.reserved = exampleBG.reserved + 104857600 ∧
        bg'.used = exampleBG.used ∧
        si'.bytes_reserved = exampleSI.bytes_reserved + 104857600 ∧
        si'.bytes_may_use + 104857600 = exampleSI.bytes_may_use) :=
  ⟨⟨by decide, by decide,
    (C2_reserve_ro_refusal exampleCfg { exampleBG with ro := 1 } exampleSI
      100 100 false false (by decide)).1 (by decide)⟩,
   ⟨by decide, by decide,
    (C2_reserve_ro_refusal exampleCfg exampleBG exampleSI
      104857600 104857600 false false (by decide)).2 (by decide)
      (Or.inl (by decide))⟩⟩

/-- C3: on a fresh group, two successful reservations of N bytes each
leave reserved at 2N with used still zero; each commit through the
allocation-update path (alloc = true) moves exactly N bytes from reserved
to used, ending at used = 2N and reserved = 0; and freeing K committed
bytes (alloc = false) moves exactly K bytes from used to pinned, leaving
the group's free bytes unchanged rather than returning them to
available. -/
theorem C3_reserve_commit_free (cfg : FsConfig) (bg : BlockGroup) (si : SpaceInfo)
    (N K factor thresh : Nat)
    (hused : bg.used = 0) (hres : bg.reserved = 0) (hpin : bg.pinned = 0)
    (hro : bg.ro = 0) (hsz : bg.size_class = SizeClass.szNone)
    (hK : K ≤ 2 * N) :
    ∃ bg₁ si₁ bg₂ si₂ bg₃ si₃ bg₄ si₄ bg₅,
      btrfs_add_reserved_bytes cfg bg si N N false false = .ok (bg₁, si₁) ∧
      btrfs_add_reserved_bytes cfg bg₁ si₁ N N false false = .ok (bg₂, si₂) ∧
      bg₂.reserved = 2 * N ∧ bg₂.used = 0 ∧
      bg₃ = (btrfs_update_block_group thresh bg₂ si₂ N true factor).1 ∧
      si₃ = (btrfs_update_block_group thresh bg₂ si₂ N true factor).2.1 ∧
      bg₃.used = N ∧ bg₃.reserved = N ∧
      bg₄ = (btrfs_update_block_group thresh bg₃ si₃ N true factor).1 ∧
      si₄ = (btrfs_update_block_group thresh bg₃ si₃ N true factor).2.1 ∧
      bg₄.used = 2 * N ∧ bg₄.reserved = 0 ∧
      bg₅ = (btrfs_update_block_group thresh bg₄ si₄ K false factor).1 ∧
      bg₅.used + K = 2 * N ∧ bg₅.pinned = bg₄.pinned + K ∧
      freeBytes bg₅ = freeBytes bg₄ := by
  have hsu₁ : btrfs_block_group_should_use_size_class cfg
      { bg with
        size_class :=
          (if btrfs_block_group_should_use_size_class cfg bg then
            btrfs_calc_block_group_size_class N else bg.size_class),
        reserved := bg.reserved + N,
        delalloc_bytes :=
          if false then bg.delalloc_bytes + N else bg.delalloc_bytes } =
      btrfs_block_group_should_use_size_class cfg bg := by
    simp [btrfs_block_group_should_use_size_class, btrfs_is_block_group_data_only]
  refine ⟨_, _, _, _, _, _, _, _, _,
    btrfs_add_reserved_bytes_succeeds cfg bg si N N false false hro (Or.inl hsz),
    btrfs_add_reserved_bytes_succeeds cfg _ _ N N false false (by simp [hro]) ?_,
    ?_, ?_, rfl, rfl, ?_, ?_, rfl, rfl, ?_, ?_, rfl, ?_, ?_, ?_⟩
  · by_cases hsu : btrfs_block_group_should_use_size_class cfg bg
    · right
      simp [hsu]
    · left
      simp [hsu, hsz]
  · simp [hres]
    omega
  · simp [hused]
  · simp [btrfs_update_block_group, hused, hres]
  · simp [btrfs_update_block_group, hres]
  · simp [btrfs_update_block_group, hused, hres]
    omega
  · simp [btrfs_update_block_group, hres]
  · simp [btrfs_update_block_group, hused, hres]
    omega
  · simp [btrfs_update_block_group, hpin]
  · simp [btrfs_update_block_group, freeBytes, hused, hres, hpin]
    omega

/-- Witness for C3 at concrete inputs: the example fresh 1 GiB group, two
100 MiB reservations, two commits, one 50 MiB free. -/
theorem C3_reserve_commit_free_witness :
    (exampleBG.used = 0 ∧ exampleBG.reserved = 0 ∧ exampleBG.pinned = 0 ∧
     exampleBG.ro = 0 ∧ exampleBG.size_class = SizeClass.szNone ∧
     52428800 ≤ 2 * 104857600) ∧
    ∃ bg₁ si₁ bg₂ si₂ bg₃ si₃ bg₄ si₄ bg₅,
      btrfs_add_reserved_bytes exampleCfg exampleBG exampleSI
        104857600 104857600 false false = .ok (bg₁, si₁) ∧
      btrfs_add_reserved_bytes exampleCfg bg₁ si₁
        104857600 104857600 false false = .ok (bg₂, si₂) ∧
      bg₂.reserved = 2 * 104857600 ∧ bg₂.used = 0 ∧
      bg₃ = (btrfs_update_block_group 0 bg₂ si₂ 104857600 true 1).1 ∧
      si₃ = (btrfs_update_block_group 0 bg₂ si₂ 104857600 true 1).2.1 ∧
      bg₃.used = 104857600 ∧ bg₃.reserved = 104857600 ∧
      bg₄ = (btrfs_update_block_group 0 bg₃ si₃ 104857600 true 1).1 ∧
      si₄ = (btrfs_update_block_group 0 bg₃ si₃ 104857600 true 1).2.1 ∧
      bg₄.used = 2 * 104857600 ∧ bg₄.reserved = 0 ∧
      bg₅ = (btrfs_update_block_group 0 bg₄ si₄ 52428800 false 1).1 ∧
      bg₅.used + 52428800 = 2 * 104857600 ∧
      bg₅.pinned = bg₄.pinned + 52428800 ∧
      freeBytes bg₅ = freeBytes bg₄ :=
  ⟨⟨by decide, by decide, by decide, by decide, by decide, by decide⟩,
   C3_reserve_commit_free exampleCfg exampleBG exampleSI
     104857600 52428800 1 0 (by decide) (by decide) (by decide) (by decide)
     (by decide) (by decide)⟩

/-- Raid types in the order of `enum btrfs_raid_types` (volumes.h). -/
inductive RaidType
  | raid10
  | raid1
  | dup
  | raid0
  | single
  | raid5
  | raid6
  | raid1c3
  | raid1c4
deriving DecidableEq, Repr

/-- The eight redundancy-scheme profile bits (`single` has no bit). -/
inductive RaidProfile
  | raid0
  | raid1
  | dup
  | raid10
  | raid5
  | raid6
  | raid1c3
  | raid1c4
deriving DecidableEq, Repr, Fintype

/-- The raid-array row of a profile bit. -/
def raidTypeOf : RaidProfile → RaidType
  | .raid0 => .raid0
  | .raid1 => .raid1
  | .dup => .dup
  | .raid10 => .raid10
  | .raid5 => .raid5
  | .raid6 => .raid6
  | .raid1c3 => .raid1c3
  | .raid1c4 => .raid1c4

/-- Test of one profile bit of a flag mask. -/
def Flags.hasProfile (f : Flags) : RaidProfile → Bool
  | .raid0 => f.raid0
  | .raid1 => f.raid1
  | .dup => f.dup
  | .raid10 => f.raid10
  | .raid5 => f.raid5
  | .raid6 => f.raid6
  | .raid1c3 => f.raid1c3
  | .raid1c4 => f.raid1c4

/-- The `bg_flag` column of `btrfs_raid_array` (volumes.c): the block-group
profile bit of each raid type; `single` contributes no bit. -/
def bg_flag : RaidType → Flags
  | .raid10 => { Flags.zero with raid10 := true }
  | .raid1 => { Flags.zero with raid1 := true }
  | .dup => { Flags.zero with dup := true }
  | .raid0 => { Flags.zero with raid0 := true }
  | .single => Flags.zero
  | .raid5 => { Flags.zero with raid5 := true }
  | .raid6 => { Flags.zero with raid6 := true }
  | .raid1c3 => { Flags.zero with raid1c3 := true }
  | .raid1c4 => { Flags.zero with raid1c4 := true }

/-- The raid types in array order, as iterated by the masking loop of
`btrfs_reduce_alloc_profile` (block-group.c:92). -/
def raidTypes : List RaidType :=
  [.raid10, .raid1, .dup, .raid0, .single, .raid5, .raid6, .raid1c3, .raid1c4]

/-- Per-class balance arguments: the conversion flag
(`BTRFS_BALANCE_ARGS_CONVERT`) and the conversion target. -/
structure BalanceArgs where
  convert : Bool
  target : Flags
deriving DecidableEq, Repr

/-- Balance control (`fs_info->balance_ctl`): per content class
arguments. -/
structure BalanceControl where
  data : BalanceArgs
  sys : BalanceArgs
  meta : BalanceArgs
deriving DecidableEq, Repr

/-- Environment of the profile reducer: the number of writable devices,
the minimum-device column of `btrfs_raid_array` (volumes.c, outside
`src/`, so the table is a parameter), and the balance control if a balance
is running. -/
structure ReduceEnv where
  rw_devices : Nat
  devs_min : RaidType → Nat
  balance_ctl : Option BalanceControl

/-- Embedding of `get_restripe_target` (block-group.c:43): the conversion
target of the content class of `flags`, or zero when no balance with a
conversion target covers it. -/
def get_restripe_target (env : ReduceEnv) (flags : Flags) : Flags :=
  match env.balance_ctl with
  | none => Flags.zero
  | some bctl =>
    if flags.data && bctl.data.convert then
      Flags.or { Flags.zero with data := true } bctl.data.target
    else if flags.system && bctl.sys.convert then
      Flags.or { Flags.zero with system := true } bctl.sys.target
    else if flags.metadata && bctl.meta.convert then
      Flags.or { Flags.zero with metadata := true } bctl.meta.target
    else Flags.zero

/-- Modelled from the spec: `extended_to_chunk` (volumes.h) is outside
`src/`; the reducer returns its result in chunk format (comment at
block-group.c:68), which differs from the extended format only by the
synthetic single-available bit, dropped by the conversion. -/
def extended_to_chunk (flags : Flags) : Flags :=
  { flags with availSingle := false }

/-- The masking loop of `btrfs_reduce_alloc_profile` (block-group.c:92):
the union of the profile bits of the raid types whose minimum device count
is satisfied by the number of writable devices. -/
def allowedMask (env : ReduceEnv) : Flags :=
  raidTypes.foldl
    (fun acc rt =>
      if env.devs_min rt ≤ env.rw_devices then Flags.or acc (bg_flag rt) else acc)
    Flags.zero

/-- The priority chain of `btrfs_reduce_alloc_profile` (block-group.c:99):
reduce the allowed set to its single highest-redundancy bit (the set
itself when it has no profile bit). -/
def selectHighestProfile (allowed : Flags) : Flags :=
  if allowed.raid1c4 then { Flags.zero with raid1c4 := true }
  else if allowed.raid6 then { Flags.zero with raid6 := true }
  else if allowed.raid1c3 then { Flags.zero with raid1c3 := true }
  else if allowed.raid5 then { Flags.zero with raid5 := true }
  else if allowed.raid10 then { Flags.zero with raid10 := true }
  else if allowed.raid1 then { Flags.zero with raid1 := true }
  else if allowed.dup then { Flags.zero with dup := true }
  else if allowed.raid0 then { Flags.zero with raid0 := true }
  else allowed

/-- Clearing `BTRFS_BLOCK_GROUP_PROFILE_MASK` (block-group.c:116). -/
def clearProfileBits (flags : Flags) : Flags :=
  { flags with raid0 := false, raid1 := false, dup := false, raid10 := false,
               raid5 := false, raid6 := false, raid1c3 := false, raid1c4 := false }

/-- Embedding of `btrfs_reduce_alloc_profile` (block-group.c:72). -/
def btrfs_reduce_alloc_profile (env : ReduceEnv) (flags : Flags) : Flags :=
  if get_restripe_target env flags ≠ Flags.zero then
    extended_to_chunk (get_restripe_target env flags)
  else
    extended_to_chunk
      (Flags.or (clearProfileBits flags)
        (selectHighestProfile (Flags.and (allowedMask env) flags)))

/-- The fixed priority order of the reducer; a larger number is chosen
first. -/
def profilePriority : RaidProfile → Nat
  | .raid1c4 => 8
  | .raid6 => 7
  | .raid1c3 => 6
  | .raid5 => 5
  | .raid10 => 4
  | .raid1 => 3
  | .dup => 2
  | .raid0 => 1

/-- The masking loop sets exactly the profile bits whose raid type has its
minimum device count satisfied. -/
theorem allowedMask_hasProfile (env : ReduceEnv) (p : RaidProfile) :
    (allowedMask env).hasProfile p =
      decide (env.devs_min (raidTypeOf p) ≤ env.rw_devices) := by
  cases p <;>
    simp [allowedMask, raidTypes, bg_flag, Flags.hasProfile, Flags.or, Flags.zero,
      raidTypeOf, apply_ite Flags.raid0, apply_ite Flags.raid1, apply_ite Flags.dup,
      apply_ite Flags.raid10, apply_ite Flags.raid5, apply_ite Flags.raid6,
      apply_ite Flags.raid1c3, apply_ite Flags.raid1c4]

/-- The masking loop never sets a content-class bit or the
single-available bit. -/
theorem allowedMask_class (env : ReduceEnv) :
    (allowedMask env).data = false ∧ (allowedMask env).system = false ∧
    (allowedMask env).metadata = false ∧ (allowedMask env).availSingle = false := by
  refine ⟨?_, ?_, ?_, ?_⟩ <;>
    simp only [allowedMask, raidTypes, List.foldl_cons, List.foldl_nil, bg_flag,
      Flags.or, Flags.zero, apply_ite Flags.data, apply_ite Flags.system,
      apply_ite Flags.metadata, apply_ite Flags.availSingle, Bool.or_false,
      ite_self]

/-- Correctness of the priority chain: it returns a subset of its input,
with at most one profile bit, and that bit has maximal priority among the
input bits. -/
theorem selectHighestProfile_spec (allowed : Flags) :
    (∀ p, (selectHighestProfile allowed).hasProfile p = true →
        allowed.hasProfile p = true) ∧
    (∀ p q, (selectHighestProfile allowed).hasProfile p = true →
        (selectHighestProfile allowed).hasProfile q = true → p = q) ∧
    (∀ p, allowed.hasProfile p = true →
        ∃ q, (selectHighestProfile allowed).hasProfile q = true ∧
             profilePriority p ≤ profilePriority q) := by
  by_cases h_raid1c4 : allowed.raid1c4 = true
  · have hsel : selectHighestProfile allowed = { Flags.zero with raid1c4 := true } := by
      unfold selectHighestProfile
      rw [if_pos h_raid1c4]
    rw [hsel]
    refine ⟨fun p hp => ?_, fun p q hp hq => ?_, fun p hp => ?_⟩
    · cases p <;> simp_all [Flags.hasProfile, Flags.zero]
    · cases p <;> cases q <;> simp_all [Flags.hasProfile, Flags.zero]
    · cases p <;> first
        | exact ⟨.raid1c4, by simp [Flags.hasProfile, Flags.zero], by decide⟩
        | (exfalso; simp_all [Flags.hasProfile, Flags.zero])
  by_cases h_raid6 : allowed.raid6 = true
  · have hsel : selectHighestProfile allowed = { Flags.zero with raid6 := true } := by
      unfold selectHighestProfile
      rw [if_neg h_raid1c4, if_pos h_raid6]
    rw [hsel]
    refine ⟨fun p hp => ?_, fun p q hp hq => ?_, fun p hp => ?_⟩
    · cases p <;> simp_all [Flags.hasProfile, Flags.zero]
    · cases p <;> cases q <;> simp_all [Flags.hasProfile, Flags.zero]
    · cases p <;> first
        | exact ⟨.raid6, by simp [Flags.hasProfile, Flags.zero], by decide⟩
        | (exfalso; simp_all [Flags.hasProfile, Flags.zero])
  by_cases h_raid1c3 : allowed.raid1c3 = true
  · have hsel : selectHighestProfile allowed = { Flags.zero with raid1c3 := true } := by
      unfold selectHighestProfile
      rw [if_neg h_raid1c4, if_neg h_raid6, if_pos h_raid1c3]
    rw [hsel]
    refine ⟨fun p hp => ?_, fun p q hp hq => ?_, fun p hp => ?_⟩
    · cases p <;> simp_all [Flags.hasProfile, Flags.zero]
    · cases p <;> cases q <;> simp_all [Flags.hasProfile, Flags.zero]
    · cases p <;> first
        | exact ⟨.raid1c3, by simp [Flags.hasProfile, Flags.zero], by decide⟩
        | (exfalso; simp_all [Flags.hasProfile, Flags.zero])
  by_cases h_raid5 : allowed.raid5 = true
  · have hsel : selectHighestProfile allowed = { Flags.zero with raid5 := true } := by
      unfold selectHighestProfile
      rw [if_neg h_raid1c4, if_neg h_raid6, if_neg h_raid1c3, if_pos h_raid5]
    rw [hsel]
    refine ⟨fun p hp => ?_, fun p q hp hq => ?_, fun p hp => ?_⟩
    · cases p <;> simp_all [Flags.hasProfile, Flags.zero]
    · cases p <;> cases q <;> simp_all [Flags.hasProfile, Flags.zero]
    · cases p <;> first
        | exact ⟨.raid5, by simp [Flags.hasProfile, Flags.zero], by decide⟩
        | (exfalso; simp_all [Flags.hasProfile, Flags.zero])
  by_cases h_raid10 : allowed.raid10 = true
  · have hsel : selectHighestProfile allowed = { Flags.zero with raid10 := true } := by
      unfold selectHighestProfile
      rw [if_neg h_raid1c4, if_neg h_raid6, if_neg h_raid1c3, if_neg h_raid5, if_pos h_raid10]
    rw [hsel]
    refine ⟨fun p hp => ?_, fun p q hp hq => ?_, fun p hp => ?_⟩
    · cases p <;> simp_all [Flags.hasProfile, Flags.zero]
    · cases p <;> cases q <;> simp_all [Flags.hasProfile, Flags.zero]
    · cases p <;> first
        | exact ⟨.raid10, by simp [Flags.hasProfile, Flags.zero], by decide⟩
        | (exfalso; simp_all [Flags.hasProfile, Flags.zero])
  by_cases h_raid1 : allowed.raid1 = true
  · have hsel : selectHighestProfile allowed = { Flags.zero with raid1 := true } := by
      unfold selectHighestProfile
      rw [if_neg h_raid1c4, if_neg h_raid6, if_neg h_raid1c3, if_neg h_raid5, if_neg h_raid10, if_pos h_raid1]
    rw [hsel]
    refine ⟨fun p hp => ?_, fun p q hp hq => ?_, fun p hp => ?_⟩
    · cases p <;> simp_all [Flags.hasProfile, Flags.zero]
    · cases p <;> cases q <;> simp_all [Flags.hasProfile, Flags.zero]
    · cases p <;> first
        | exact ⟨.raid1, by simp [Flags.hasProfile, Flags.zero], by decide⟩
        | (exfalso; simp_all [Flags.hasProfile, Flags.zero])
  by_cases h_dup : allowed.dup = true
  · have hsel : selectHighestProfile allowed = { Flags.zero with dup := true } := by
      unfold selectHighestProfile
      rw [if_neg h_raid1c4, if_neg h_raid6, if_neg h_raid1c3, if_neg h_raid5, if_neg h_raid10, if_neg h_raid1, if_pos h_dup]
    rw [hsel]
    refine ⟨fun p hp => ?_, fun p q hp hq => ?_, fun p hp => ?_⟩
    · cases p <;> simp_all [Flags.hasProfile, Flags.zero]
    · cases p <;> cases q <;> simp_all [Flags.hasProfile, Flags.zero]
    · cases p <;> first
        | exact ⟨.dup, by simp [Flags.hasProfile, Flags.zero], by decide⟩
        | (exfalso; simp_all [Flags.hasProfile, Flags.zero])
  by_cases h_raid0 : allowed.raid0 = true
  · have hsel : selectHighestProfile allowed = { Flags.zero with raid0 := true } := by
      unfold selectHighestProfile
      rw [if_neg h_raid1c4, if_neg h_raid6, if_neg h_raid1c3, if_neg h_raid5, if_neg h_raid10, if_neg h_raid1, if_neg h_dup, if_pos h_raid0]
    rw [hsel]
    refine ⟨fun p hp => ?_, fun p q hp hq => ?_, fun p hp => ?_⟩
    · cases p <;> simp_all [Flags.hasProfile, Flags.zero]
    · cases p <;> cases q <;> simp_all [Flags.hasProfile, Flags.zero]
    · cases p <;> first
        | exact ⟨.raid0, by simp [Flags.hasProfile, Flags.zero], by decide⟩
        | (exfalso; simp_all [Flags.hasProfile, Flags.zero])
  · have hsel : selectHighestProfile allowed = allowed := by
      unfold selectHighestProfile
      rw [if_neg h_raid1c4, if_neg h_raid6, if_neg h_raid1c3, if_neg h_raid5, if_neg h_raid10, if_neg h_raid1, if_neg h_dup, if_neg h_raid0]
    rw [hsel]
    refine ⟨fun p hp => hp, fun p q hp hq => ?_, fun p hp => ?_⟩
    · cases p <;> cases q <;> simp_all [Flags.hasProfile]
    · cases p <;> simp_all [Flags.hasProfile]

/-- The priority chain never introduces a content-class or
single-available bit its input does not have. -/
theorem selectHighestProfile_class (a : Flags)
    (hd : a.data = false) (hs : a.system = false) (hm : a.metadata = false)
    (hav : a.availSingle = false) :
    (selectHighestProfile a).data = false ∧
    (selectHighestProfile a).system = false ∧
    (selectHighestProfile a).metadata = false ∧
    (selectHighestProfile a).availSingle = false := by
  unfold selectHighestProfile
  split
  · simp [Flags.zero]
  all_goals split
  · simp [Flags.zero]
  all_goals split
  · simp [Flags.zero]
  all_goals split
  · simp [Flags.zero]
  all_goals split
  · simp [Flags.zero]
  all_goals split
  · simp [Flags.zero]
  all_goals split
  · simp [Flags.zero]
  all_goals split
  · simp [Flags.zero]
  · exact ⟨hd, hs, hm, hav⟩

/-- C4: the profile reducer returns the conversion target (in chunk
format) when a balance with a conversion target covers the content class;
otherwise it keeps the content-class bits, and its profile part consists
of at most one bit, drawn from the profiles of the input whose minimum
device count is satisfied by the writable device count, maximal in the
fixed priority order RAID1C4 > RAID6 > RAID1C3 > RAID5 > RAID10 > RAID1 >
DUP > RAID0 (no bit at all exactly when no profile survives the mask). -/
theorem C4_profile_reducer (env : ReduceEnv) (flags : Flags) :
    (get_restripe_target env flags ≠ Flags.zero →
      btrfs_reduce_alloc_profile env flags =
        extended_to_chunk (get_restripe_target env flags)) ∧
    (get_restripe_target env flags = Flags.zero →
      (btrfs_reduce_alloc_profile env flags).data = flags.data ∧
      (btrfs_reduce_alloc_profile env flags).system = flags.system ∧
      (btrfs_reduce_alloc_profile env flags).metadata = flags.metadata ∧
      (btrfs_reduce_alloc_profile env flags).availSingle = false ∧
      (∀ p, (btrfs_reduce_alloc_profile env flags).hasProfile p = true →
        flags.hasProfile p = true ∧
        env.devs_min (raidTypeOf p) ≤ env.rw_devices) ∧
      (∀ p q, (btrfs_reduce_alloc_profile env flags).hasProfile p = true →
        (btrfs_reduce_alloc_profile env flags).hasProfile q = true → p = q) ∧
      (∀ p, flags.hasProfile p = true →
        env.devs_min (raidTypeOf p) ≤ env.rw_devices →
        ∃ q, (btrfs_reduce_alloc_profile env flags).hasProfile q = true ∧
             profilePriority p ≤ profilePriority q)) := by
  constructor
  · intro h
    unfold btrfs_reduce_alloc_profile
    rw [if_pos h]
  · intro h
    have hred : btrfs_reduce_alloc_profile env flags =
        extended_to_chunk (Flags.or (clearProfileBits flags)
          (selectHighestProfile (Flags.and (allowedMask env) flags))) := by
      unfold btrfs_reduce_alloc_profile
      rw [if_neg (by simp [h])]
    have hand : ∀ p, (Flags.and (allowedMask env) flags).hasProfile p =
        ((allowedMask env).hasProfile p && flags.hasProfile p) := by
      intro p
      cases p <;> rfl
    have hallow : ∀ p, (Flags.and (allowedMask env) flags).hasProfile p = true ↔
        (flags.hasProfile p = true ∧
          env.devs_min (raidTypeOf p) ≤ env.rw_devices) := by
      intro p
      rw [hand p, allowedMask_hasProfile env p]
      simp [Bool.and_eq_true, decide_eq_true_iff, and_comm]
    have hprof : ∀ p, (btrfs_reduce_alloc_profile env flags).hasProfile p =
        (selectHighestProfile (Flags.and (allowedMask env) flags)).hasProfile p := by
      intro p
      rw [hred]
      cases p <;>
        simp [extended_to_chunk, Flags.or, clearProfileBits, Flags.hasProfile]
    obtain ⟨hmd, hms, hmm, hmav⟩ := allowedMask_class env
    have handclass : (Flags.and (allowedMask env) flags).data = false ∧
        (Flags.and (allowedMask env) flags).system = false ∧
        (Flags.and (allowedMask env) flags).metadata = false ∧
        (Flags.and (allowedMask env) flags).availSingle = false := by
      simp [Flags.and, hmd, hms, hmm, hmav]
    obtain ⟨hscd, hscs, hscm, hscav⟩ :=
      selectHighestProfile_class _ handclass.1 handclass.2.1 handclass.2.2.1
        handclass.2.2.2
    obtain ⟨hsub, huniq, hmax⟩ :=
      selectHighestProfile_spec (Flags.and (allowedMask env) flags)
    refine ⟨?_, ?_, ?_, ?_, ?_, ?_, ?_⟩
    · rw [hred]; simp [extended_to_chunk, Flags.or, clearProfileBits, hscd]
    · rw [hred]; simp [extended_to_chunk, Flags.or, clearProfileBits, hscs]
    · rw [hred]; simp [extended_to_chunk, Flags.or, clearProfileBits, hscm]
    · rw [hred]; simp [extended_to_chunk, Flags.or, clearProfileBits]
    · intro p hp
      rw [hprof p] at hp
      exact (hallow p).mp (hsub p hp)
    · intro p q hp hq
      rw [hprof p] at hp
      rw [hprof q] at hq
      exact huniq p q hp hq
    · intro p hpf hpd
      obtain ⟨q, hq, hle⟩ := hmax p ((hallow p).mpr ⟨hpf, hpd⟩)
      exact ⟨q, by rw [hprof q]; exact hq, hle⟩

/-- Concrete minimum-device table for the witness (the `devs_min` column
of `btrfs_raid_array`). -/
def devsMinTable : RaidType → Nat
  | .raid10 => 4
  | .raid1 => 2
  | .dup => 1
  | .raid0 => 2
  | .single => 1
  | .raid5 => 2
  | .raid6 => 3
  | .raid1c3 => 3
  | .raid1c4 => 4

/-- Witness environment with an active data balance converting to
RAID1C3. -/
def envBalance : ReduceEnv :=
  ⟨2, devsMinTable,
   some ⟨⟨true, { Flags.zero with raid1c3 := true }⟩,
         ⟨false, Flags.zero⟩, ⟨false, Flags.zero⟩⟩⟩

/-- Witness environment with two writable devices and no balance. -/
def envTwo : ReduceEnv := ⟨2, devsMinTable, none⟩

/-- Witness flags: a data class allowing RAID1 and RAID0. -/
def flagsDataR1R0 : Flags :=
  { Flags.zero with data := true, raid1 := true, raid0 := true }

/-- Witness for C4 at concrete inputs: an active data balance makes the
reducer return its target; without one, on two devices a {RAID1, RAID0}
data set keeps the data bit and reduces to the higher-priority RAID1. -/
theorem C4_profile_reducer_witness :
    (get_restripe_target envBalance flagsDataR1R0 ≠ Flags.zero ∧
      btrfs_reduce_alloc_profile envBalance flagsDataR1R0 =
        extended_to_chunk (get_restripe_target envBalance flagsDataR1R0)) ∧
    (get_restripe_target envTwo flagsDataR1R0 = Flags.zero ∧
      (btrfs_reduce_alloc_profile envTwo flagsDataR1R0).data =
        flagsDataR1R0.data ∧
      (flagsDataR1R0.hasProfile .raid0 = true ∧
        envTwo.devs_min (raidTypeOf .raid0) ≤ envTwo.rw_devices ∧
        ∃ q, (btrfs_reduce_alloc_profile envTwo flagsDataR1R0).hasProfile q = true ∧
          profilePriority .raid0 ≤ profilePriority q)) := by
  obtain ⟨hbal, -⟩ := C4_profile_reducer envBalance flagsDataR1R0
  obtain ⟨-, hplain⟩ := C4_profile_reducer envTwo flagsDataR1R0
  have h1 : get_restripe_target envBalance flagsDataR1R0 ≠ Flags.zero := by decide
  have h2 : get_restripe_target envTwo flagsDataR1R0 = Flags.zero := by rfl
  obtain ⟨hd, -, -, -, -, -, hmax⟩ := hplain h2
  exact ⟨⟨h1, hbal h1⟩, h2, hd,
         by decide, by decide, hmax .raid0 (by decide) (by decide)⟩

/-- A 1000 MiB data group with 900 MiB reserved and nothing else
outstanding (the scenario of the spec). -/
def bg900 : BlockGroup :=
  ⟨1048576, 1048576000, exampleFlags, 0, 943718400, 0, 0, 0, 0, 0, 0, .szNone, 0, 0⟩

/-- The matching 1000 MiB data class: its one group holds the 900 MiB
reservation and no soft reservations remain (they were converted when the
reservation attached). -/
def si900 : SpaceInfo :=
  ⟨exampleFlags, 1048576000, 0, 943718400, 0, 0, 0, 0, 0, 0⟩

/-- Counterexample for C5: at reserved = 900 MiB of a 1000 MiB data class
with no other usage, `inc_block_group_ro` with force = false does not fail
with the no-space error — class-wide usage (900 MiB) plus the group's free
bytes (100 MiB) exactly fits the 1000 MiB capacity, and the admission test
of block-group.c:1371 accepts an exact fit. -/
theorem C5_exact_fit_counterexample :
    inc_block_group_ro exampleCfg bg900 si900 false =
      .ok ({ bg900 with ro := 1 },
           { si900 with bytes_readonly := 104857600 }) ∧
    inc_block_group_ro exampleCfg bg900 si900 false ≠ .error .ENOSPC := by
  constructor
  · rfl
  · intro h
    rw [show inc_block_group_ro exampleCfg bg900 si900 false =
      .ok ({ bg900 with ro := 1 },
           { si900 with bytes_readonly := 104857600 }) from rfl] at h
    exact absurd h (by simp)

/-- C5 (amended): on a group whose swap-extents counter is zero and whose
read-only counter is zero, set-read-only with force = true always succeeds
and leaves the counter at 1; with force = false on a data group it
succeeds when class-wide usage plus the group's free bytes stays within
the class capacity (in particular at the exact fit of the 900-of-1000
scenario), and fails with the no-space error — mutating nothing — only
when that sum strictly exceeds the capacity. -/
theorem C5_set_read_only_amended (cfg : FsConfig) (bg : BlockGroup)
    (si : SpaceInfo) (hz : cfg.zoned = false)
    (hswap : bg.swap_extents = 0) (hro : bg.ro = 0) :
    (inc_block_group_ro cfg bg si true =
      .ok ({ bg with ro := 1 },
           { si with bytes_readonly := si.bytes_readonly + ro_num_bytes bg })) ∧
    (si.flags.data = true →
      btrfs_space_info_used si true + ro_num_bytes bg ≤ si.total_bytes →
      inc_block_group_ro cfg bg si false =
        .ok ({ bg with ro := 1 },
             { si with bytes_readonly := si.bytes_readonly + ro_num_bytes bg })) ∧
    (si.flags.data = true →
      si.total_bytes < btrfs_space_info_used si true + ro_num_bytes bg →
      inc_block_group_ro cfg bg si false = .error .ENOSPC) := by
  refine ⟨?_, ?_, ?_⟩
  · unfold inc_block_group_ro ro_admitted
    rw [if_neg (by simp [hswap]), if_neg (by simp [hro]), if_pos (by simp), hz]
    simp [hro]
  · intro hdata hfits
    unfold inc_block_group_ro ro_admitted
    rw [if_neg (by simp [hswap]), if_neg (by simp [hro]),
        if_pos (by simp [hdata, hfits]), hz]
    simp [hro]
  · intro hdata hover
    unfold inc_block_group_ro ro_admitted
    rw [if_neg (by simp [hswap]), if_neg (by simp [hro]),
        if_neg (by simp [hdata]; omega)]

/-- Witness for the amended C5 at concrete inputs: the 900-of-1000
scenario succeeds with force = false; the same class with one extra
soft-reserved byte fails with the no-space error; force = true succeeds. -/
theorem C5_set_read_only_amended_witness :
    (exampleCfg.zoned = false ∧ bg900.swap_extents = 0 ∧ bg900.ro = 0) ∧
    inc_block_group_ro exampleCfg bg900 si900 true =
      .ok ({ bg900 with ro := 1 },
           { si900 with bytes_readonly := si900.bytes_readonly + ro_num_bytes bg900 }) ∧
    inc_block_group_ro exampleCfg bg900 si900 false =
      .ok ({ bg900 with ro := 1 },
           { si900 with bytes_readonly := si900.bytes_readonly + ro_num_bytes bg900 }) ∧
    inc_block_group_ro exampleCfg bg900 { si900 with bytes_may_use := 1 } false =
      .error .ENOSPC := by
  obtain ⟨h1, h2, h3⟩ :=
    C5_set_read_only_amended exampleCfg bg900 si900 rfl (by decide) (by decide)
  obtain ⟨-, -, h6⟩ :=
    C5_set_read_only_amended exampleCfg bg900 { si900 with bytes_may_use := 1 }
      rfl (by decide) (by decide)
  exact ⟨⟨rfl, by decide, by decide⟩, h1, h2 (by decide) (by decide),
         h6 (by decide) (by decide)⟩

/-- C6: setting read-only twice and clearing twice moves the group's free
bytes into the class readonly counter exactly once (on the first set,
which takes the counter to 1 without touching the byte counters) and moves
them back exactly once (on the second clear, when the counter returns to
0); the intermediate set and clear change only the counter, so the
readonly accounting ends at its original value (non-zoned
configuration). -/
theorem C6_ro_idempotence (cfg : FsConfig) (bg : BlockGroup) (si : SpaceInfo)
    (force : Bool) (bg₁ : BlockGroup) (si₁ : SpaceInfo)
    (hz : cfg.zoned = false) (hro : bg.ro = 0)
    (hok : inc_block_group_ro cfg bg si force = .ok (bg₁, si₁)) :
    bg₁.ro = 1 ∧
    si₁.bytes_readonly = si.bytes_readonly + ro_num_bytes bg ∧
    bg₁.used = bg.used ∧ bg₁.reserved = bg.reserved ∧ bg₁.pinned = bg.pinned ∧
    bg₁.bytes_super = bg.bytes_super ∧
    bg₁.zone_unusable = bg.zone_unusable ∧ bg₁.length = bg.length ∧
    inc_block_group_ro cfg bg₁ si₁ force = .ok ({ bg₁ with ro := 2 }, si₁) ∧
    btrfs_dec_block_group_ro cfg { bg₁ with ro := 2 } si₁ =
      some ({ bg₁ with ro := 1 }, si₁) ∧
    btrfs_dec_block_group_ro cfg { bg₁ with ro := 1 } si₁ =
      some ({ bg₁ with ro := 0 },
            { si₁ with bytes_readonly := si.bytes_readonly }) := by
  have hswap : bg.swap_extents = 0 := (inc_block_group_ro_ok hok).1
  unfold inc_block_group_ro at hok
  rw [if_neg (by simp [hswap]), if_neg (by simp [hro]), hz] at hok
  split at hok
  · simp only [Bool.false_eq_true, if_false] at hok
    have hbg₁ : bg₁ = { bg with ro := bg.ro + 1 } :=
      (congrArg Prod.fst (Except.ok.inj hok)).symm
    have hsi₁ : si₁ = { si with
        bytes_readonly := si.bytes_readonly + ro_num_bytes bg } :=
      (congrArg Prod.snd (Except.ok.inj hok)).symm
    subst hbg₁
    subst hsi₁
    refine ⟨by simp [hro], by simp, by simp, by simp, by simp, by simp, by simp,
           by simp, ?_, ?_, ?_⟩
    · unfold inc_block_group_ro
      rw [if_neg (by simp [hswap]), if_pos (by simp [hro])]
      simp [hro]
    · unfold btrfs_dec_block_group_ro
      rw [if_neg (by simp [hro])]
      simp [hro]
    · unfold btrfs_dec_block_group_ro
      rw [if_neg (by simp [hro]), if_pos (by simp [hro]), hz]
      simp only [Bool.false_eq_true, if_false]
      simp [hro, ro_num_bytes]
  · exact absurd hok (by simp)

/-- Witness for C6 at concrete inputs: the example fresh 1 GiB group,
forced read-only. -/
theorem C6_ro_idempotence_witness :
    (exampleCfg.zoned = false ∧ exampleBG.ro = 0 ∧
     inc_block_group_ro exampleCfg exampleBG exampleSI true =
       .ok ({ exampleBG with ro := 1 },
            { exampleSI with bytes_readonly := 1073741824 })) ∧
    ({ exampleBG with ro := 1 }.ro = 1 ∧
     { exampleSI with bytes_readonly := 1073741824 }.bytes_readonly =
       exampleSI.bytes_readonly + ro_num_bytes exampleBG) := by
  obtain ⟨h1, h2, -⟩ :=
    C6_ro_idempotence exampleCfg exampleBG exampleSI true
      { exampleBG with ro := 1 } { exampleSI with bytes_readonly := 1073741824 }
      rfl (by decide) (by rfl)
  exact ⟨⟨rfl, by decide, by rfl⟩, h1, h2⟩

/-- C10: the read-only counter and the swap-extents counter are never both
nonzero: enabling swap-extents fails without incrementing on a read-only
group, setting read-only fails with the busy error when swap-extents is
nonzero, the invariant is preserved by every public operation, and
whenever a swap-extents holder decrements the counter the asserted
condition (the group is not read-only) holds. -/
theorem C10_ro_swap_exclusion (cfg : FsConfig)
    (s t : BlockGroup × SpaceInfo) :
    (∀ bg : BlockGroup, bg.ro ≠ 0 →
        btrfs_inc_block_group_swap_extents bg = (false, bg)) ∧
    (∀ (bg : BlockGroup) (si : SpaceInfo) (force : Bool), bg.swap_extents ≠ 0 →
        inc_block_group_ro cfg bg si force = .error .ETXTBSY) ∧
    (roSwapExcl s.1 → Reach cfg s t → roSwapExcl t.1) ∧
    (roSwapExcl s.1 → Reach cfg s t →
      ∀ amount : Nat, 0 < amount → amount ≤ t.1.swap_extents → t.1.ro = 0) := by
  have hpres : roSwapExcl s.1 → Reach cfg s t → roSwapExcl t.1 := by
    intro h0 hreach
    induction hreach with
    | refl => exact h0
    | tail hr hstep ih => exact step_preserves_roSwapExcl hstep ih
  refine ⟨?_, ?_, hpres, ?_⟩
  · intro bg h
    simp [btrfs_inc_block_group_swap_extents, h]
  · intro bg si force h
    simp [inc_block_group_ro, h]
  · intro h0 hreach amount hpos hle
    rcases hpres h0 hreach with h | h
    · exact h
    · omega

/-- Witness for C10 at concrete inputs: a read-only group refuses
swap-extents, a swapping group refuses read-only, and the invariant holds
along an empty reachability chain. -/
theorem C10_ro_swap_exclusion_witness :
    ({ exampleBG with ro := 1 }.ro ≠ 0 ∧
      btrfs_inc_block_group_swap_extents { exampleBG with ro := 1 } =
        (false, { exampleBG with ro := 1 })) ∧
    ({ exampleBG with swap_extents := 1 }.swap_extents ≠ 0 ∧
      inc_block_group_ro exampleCfg { exampleBG with swap_extents := 1 }
        exampleSI false = .error .ETXTBSY) ∧
    (roSwapExcl exampleBG ∧ roSwapExcl exampleBG) := by
  obtain ⟨h1, h2, h3, h4⟩ :=
    C10_ro_swap_exclusion exampleCfg (exampleBG, exampleSI) (exampleBG, exampleSI)
  exact ⟨⟨by decide, h1 _ (by decide)⟩,
         ⟨by decide, h2 _ exampleSI false (by decide)⟩,
         ⟨by decide, h3 (by decide) Relation.ReflTransGen.refl⟩⟩

/-- One used-extent record returned by the extent-tree scan: a key with
`objectid` (start address), `offset` (byte length for an extent item) and
the metadata-item marker (whose length is the node size instead). -/
structure ExtentKey where
  objectid : Nat
  offset : Nat
  isMetadata : Bool
deriving DecidableEq, Repr

/-- Embedding of `btrfs_add_new_free_space` (block-group.c:519), returning
the list of free-space records inserted for the range `[start, e)`.  The
excluded-extent tree is a list of inclusive superblock ranges ordered by
start; `find_first_extent_bit` returns the first whose end is at or after
the cursor, so the while loop, which always advances the cursor past the
range it consumed, visits the ranges in list order — the recursion on the
list mirrors it step for step (a range ending before the cursor is what
the tree search skips). -/
def btrfs_add_new_free_space (excluded : List (Nat × Nat)) (start e : Nat) :
    List (Nat × Nat) :=
  match excluded with
  | [] => if start < e then [(start, e - start)] else []
  | (es, ee) :: rest =>
    if start < e then
      if ee < start then btrfs_add_new_free_space rest start e
      else if es ≤ start then btrfs_add_new_free_space rest (ee + 1) e
      else if es < e then
        (start, es - start) :: btrfs_add_new_free_space rest (ee + 1) e
      else [(start, e - start)]
    else []

/-- The scan loop of `load_extent_tree_free` (block-group.c:754), over the
ordered used-extent records: a key below the cursor restarts the search at
the cursor (here: is skipped), a key below the group start is skipped, a
key at or past the group end breaks out to the final tail insertion, and
an extent or metadata item inserts the gap `[last, objectid)` and advances
the cursor past the item. -/
def load_extent_tree_scan (nodesize : Nat) (excluded : List (Nat × Nat))
    (gStart gEnd : Nat) (last : Nat) : List ExtentKey → List (Nat × Nat)
  | [] => btrfs_add_new_free_space excluded last gEnd
  | k :: ks =>
    if k.objectid < last then
      load_extent_tree_scan nodesize excluded gStart gEnd last ks
    else if k.objectid < gStart then
      load_extent_tree_scan nodesize excluded gStart gEnd last ks
    else if gEnd ≤ k.objectid then
      btrfs_add_new_free_space excluded last gEnd
    else
      btrfs_add_new_free_space excluded last k.objectid ++
        load_extent_tree_scan nodesize excluded gStart gEnd
          (if k.isMetadata then k.objectid + nodesize else k.objectid + k.offset) ks

/-- Embedding of `load_extent_tree_free` (block-group.c:702): the
free-space records inserted for a group `[gStart, gStart + gLength)` given
the ordered used-extent records; the scan starts at the larger of the
group start and the superblock offset (block-group.c:720). -/
def load_extent_tree_free (nodesize : Nat) (excluded : List (Nat × Nat))
    (gStart gLength : Nat) (keys : List ExtentKey) : List (Nat × Nat) :=
  load_extent_tree_scan nodesize excluded gStart (gStart + gLength)
    (max gStart BTRFS_SUPER_INFO_OFFSET) keys

/-- Written from the words of the spec, for comparison with the embedded
scan: the free ranges of a group are exactly the gaps between consecutive
used extents plus the tail gap up to the group end. -/
def gapsSpec (last e : Nat) : List ExtentKey → List (Nat × Nat)
  | [] => if last < e then [(last, e - last)] else []
  | k :: ks =>
    (if last < k.objectid then [(last, k.objectid - last)] else []) ++
      gapsSpec (k.objectid + k.offset) e ks

/-- Well-formed extent records for a scan starting at `lo` and a group
ending at `hi`: ordered, disjoint, nonempty extent items inside the
range. -/
def inRangeChain (lo hi : Nat) : List ExtentKey → Prop
  | [] => True
  | k :: ks => lo ≤ k.objectid ∧ 0 < k.offset ∧ k.isMetadata = false ∧
      k.objectid + k.offset ≤ hi ∧ inRangeChain (k.objectid + k.offset) hi ks

/-- Extent records that tile the range `[lo, hi)` exactly, leaving no
gap. -/
def tilesExactly (lo hi : Nat) : List ExtentKey → Prop
  | [] => lo = hi
  | k :: ks => k.objectid = lo ∧ tilesExactly (k.objectid + k.offset) hi ks

/-- The scan loop computes exactly the gaps when the records are
well-formed and the cursor starts at or after the group start. -/
theorem load_extent_tree_scan_eq_gaps (nodesize : Nat) (gStart gEnd : Nat) :
    ∀ (keys : List ExtentKey) (last : Nat), gStart ≤ last →
      inRangeChain last gEnd keys →
      load_extent_tree_scan nodesize [] gStart gEnd last keys =
        gapsSpec last gEnd keys := by
  intro keys
  induction keys with
  | nil =>
    intro last h1 h2
    rfl
  | cons k ks ih =>
    intro last h1 hc
    obtain ⟨hlo, hoff, hmeta, hhi, hrest⟩ := hc
    unfold load_extent_tree_scan
    rw [if_neg (by omega), if_neg (by omega), if_neg (by omega), hmeta]
    simp only [Bool.false_eq_true, if_false]
    unfold gapsSpec
    rw [ih (k.objectid + k.offset) (by omega) hrest]
    rfl

/-- Tiling records leave no gap in the spec-level gap computation. -/
theorem gapsSpec_tiling (e : Nat) :
    ∀ (keys : List ExtentKey) (last : Nat),
      tilesExactly last e keys → gapsSpec last e keys = [] := by
  intro keys
  induction keys with
  | nil =>
    intro last ht
    unfold tilesExactly at ht
    unfold gapsSpec
    rw [if_neg (by omega)]
  | cons k ks ih =>
    intro last ht
    obtain ⟨hk, hrest⟩ := ht
    unfold gapsSpec
    rw [if_neg (by omega), ih (k.objectid + k.offset) hrest]
    rfl

/-- Counterexample for C7: for the literal group `[0, 40)` of the spec
scenario, with used extents `[0,10)` and `[20,30)` and no excluded ranges,
the caching scan inserts no free-space record at all — the scan cursor
starts at `max(start, 65536)`, the superblock offset, which is past the
whole group — rather than the free ranges `[10,20)` and `[30,40)` the
claim states. -/
theorem C7_group_at_zero_counterexample :
    load_extent_tree_free 4096 [] 0 40 [⟨0, 10, false⟩, ⟨20, 10, false⟩] = [] ∧
    load_extent_tree_free 4096 [] 0 40 [⟨0, 10, false⟩, ⟨20, 10, false⟩] ≠
      [(10, 10), (30, 10)] := by
  constructor
  · rfl
  · intro h
    rw [show load_extent_tree_free 4096 [] 0 40
      [⟨0, 10, false⟩, ⟨20, 10, false⟩] = [] from rfl] at h
    exact absurd h (by simp)

/-- C7 (amended): for a group starting at or after the superblock offset
(65536), as every real group does, the caching scan inserts into the
free-space index exactly the gaps between consecutive used extents plus
the tail gap up to the group end; a group with zero used extents yields
one record spanning its full range, and extents tiling the group exactly
yield zero records.  (Inside the spec scenario shifted above the
superblock offset, used ranges at relative offsets `[0,10)` and `[20,30)`
of a 40-byte group yield the two relative gaps `[10,20)` and `[30,40)`;
see the witness.) -/
theorem C7_caching_scan_gaps (nodesize gStart gLength : Nat)
    (keys : List ExtentKey)
    (hS : BTRFS_SUPER_INFO_OFFSET ≤ gStart)
    (hchain : inRangeChain gStart (gStart + gLength) keys) :
    load_extent_tree_free nodesize [] gStart gLength keys =
      gapsSpec gStart (gStart + gLength) keys ∧
    (keys = [] → 0 < gLength →
      load_extent_tree_free nodesize [] gStart gLength keys =
        [(gStart, gLength)]) ∧
    (tilesExactly gStart (gStart + gLength) keys →
      load_extent_tree_free nodesize [] gStart gLength keys = []) := by
  have hmax : max gStart BTRFS_SUPER_INFO_OFFSET = gStart := Nat.max_eq_left hS
  have hmain : load_extent_tree_free nodesize [] gStart gLength keys =
      gapsSpec gStart (gStart + gLength) keys := by
    unfold load_extent_tree_free
    rw [hmax]
    exact load_extent_tree_scan_eq_gaps nodesize gStart (gStart + gLength) keys
      gStart (Nat.le_refl gStart) hchain
  refine ⟨hmain, ?_, ?_⟩
  · intro hkeys hlen
    subst hkeys
    rw [hmain]
    unfold gapsSpec
    rw [if_pos (by omega)]
    simp
  · intro htile
    rw [hmain]
    exact gapsSpec_tiling (gStart + gLength) keys gStart htile

/-- Witness for the amended C7 at concrete inputs: the spec scenario
shifted to start at the superblock offset — group `[65536, 65576)`, used
extents `[65536, 65546)` and `[65556, 65566)` — yields exactly the two
gaps `[65546, 65556)` and `[65566, 65576)`; a group with no used extents
yields one full-range record; a fully tiled group yields none. -/
theorem C7_caching_scan_gaps_witness :
    (BTRFS_SUPER_INFO_OFFSET ≤ 65536 ∧
      inRangeChain 65536 (65536 + 40)
        [⟨65536, 10, false⟩, ⟨65556, 10, false⟩] ∧
      load_extent_tree_free 4096 [] 65536 40
        [⟨65536, 10, false⟩, ⟨65556, 10, false⟩] =
        gapsSpec 65536 (65536 + 40)
          [⟨65536, 10, false⟩, ⟨65556, 10, false⟩] ∧
      gapsSpec 65536 (65536 + 40) [⟨65536, 10, false⟩, ⟨65556, 10, false⟩] =
        [(65546, 10), (65566, 10)]) ∧
    load_extent_tree_free 4096 [] 65536 40 [] = [(65536, 40)] ∧
    load_extent_tree_free 4096 [] 65536 40 [⟨65536, 40, false⟩] = [] := by
  obtain ⟨h1, -, -⟩ :=
    C7_caching_scan_gaps 4096 65536 40
      [⟨65536, 10, false⟩, ⟨65556, 10, false⟩] (by decide)
      (by simp [inRangeChain])
  obtain ⟨-, h2, -⟩ :=
    C7_caching_scan_gaps 4096 65536 40 [] (by decide) (by simp [inRangeChain])
  obtain ⟨-, -, h3⟩ :=
    C7_caching_scan_gaps 4096 65536 40 [⟨65536, 40, false⟩] (by decide)
      (by simp [inRangeChain])
  exact ⟨⟨by decide, by simp [inRangeChain], h1, rfl⟩,
         h2 rfl (by decide), h3 (by simp [tilesExactly])⟩

/-- Environment of the reclaim worker: the filesystem configuration, the
configured reclaim threshold percentage (`bg_reclaim_threshold`), whether
asynchronous discard is enabled (it only chooses the unused-list marking,
outside the counters we track), whether the cleaner must sleep (the
fast-exit of block-group.c:1885), and the success of
`btrfs_relocate_chunk` (fs/btrfs/volumes.c, out of scope per the spec) as
an oracle keyed by group start. -/
structure ReclaimEnv where
  cfg : FsConfig
  bg_reclaim_threshold : Nat
  discardAsync : Bool
  needCleanerSleep : Bool
  relocate : Nat → Bool

/-- Outcome of one iteration of the reclaim loop. -/
inductive ReclaimOutcome
  | skippedBusy
  | markedUnused
  | skippedThreshold
  | skippedCleanerSleep
  | roFailed
  | relocated
  | relocFailedDemoted
deriving DecidableEq, Repr

/-- One reclaim candidate: a block group and its space info. -/
structure ReclaimItem where
  bg : BlockGroup
  si : SpaceInfo
deriving DecidableEq, Repr

/-- Embedding of `reclaim_bgs_cmp` (block-group.c:1731) as the order
`list_sort` establishes with it: the C comparator returns
`bg1->used > bg2->used`, and `list_sort` keeps `a` before `b` exactly when
the comparator is nonpositive, i.e. when `a->used <= b->used`. -/
def reclaim_bgs_cmp (a b : ReclaimItem) : Bool :=
  Nat.ble a.bg.used b.bg.used

/-- One iteration of the reclaim loop body (block-group.c:1829-1913): bail
on outstanding reservations, pins or read-only status; divert empty groups
to the unused-list mechanism; re-verify the reclaim threshold (with the
whole length as the fake freed amount of block-group.c:1870); bail when
the cleaner must sleep; otherwise elevate to read-only, relocate, and
demote back to read-write when relocation fails (the `getD` default of
the demotion is unreachable: the elevation left the counter at 1). -/
def reclaim_step (env : ReclaimEnv) (it : ReclaimItem) :
    ReclaimOutcome × ReclaimItem :=
  if it.bg.reserved ≠ 0 ∨ it.bg.pinned ≠ 0 ∨ it.bg.ro ≠ 0 then
    (.skippedBusy, it)
  else if it.bg.used = 0 then
    (.markedUnused, it)
  else if ¬ should_reclaim_block_group env.bg_reclaim_threshold it.bg
      it.bg.length then
    (.skippedThreshold, it)
  else if env.needCleanerSleep then
    (.skippedCleanerSleep, it)
  else
    match inc_block_group_ro env.cfg it.bg it.si false with
    | .error _ => (.roFailed, it)
    | .ok (bg', si') =>
      if env.relocate bg'.start then (.relocated, ⟨bg', si'⟩)
      else
        let st := (btrfs_dec_block_group_ro env.cfg bg' si').getD (bg', si')
        (.relocFailedDemoted, ⟨st.1, st.2⟩)

/-- Embedding of the underused pass of `btrfs_reclaim_bgs_work`
(block-group.c:1773): sort the candidate list ascending by used bytes
(`list_sort` is a stable merge sort, as is `List.mergeSort`), then process
each candidate in order. -/
def btrfs_reclaim_bgs_work (env : ReclaimEnv) (items : List ReclaimItem) :
    List (ReclaimOutcome × ReclaimItem) :=
  (items.mergeSort reclaim_bgs_cmp).map (reclaim_step env)

/-- C8: the underused reclaim pass processes the candidates in ascending
order of used bytes (a permutation of the input list); a candidate with a
nonzero reserved, pinned or read-only counter is skipped unchanged, as is
one no longer crossing the configured threshold; an accepted candidate is
first elevated to read-only (counter 0 to 1) and, when relocation fails,
demoted back to read-write (counter back to 0). -/
theorem C8_reclaim_pass (env : ReclaimEnv) (items : List ReclaimItem)
    (hz : env.cfg.zoned = false) :
    (List.Pairwise (fun a b => a.bg.used ≤ b.bg.used)
        (items.mergeSort reclaim_bgs_cmp) ∧
      (items.mergeSort reclaim_bgs_cmp).Perm items ∧
      btrfs_reclaim_bgs_work env items =
        (items.mergeSort reclaim_bgs_cmp).map (reclaim_step env)) ∧
    (∀ it : ReclaimItem,
      (it.bg.reserved ≠ 0 ∨ it.bg.pinned ≠ 0 ∨ it.bg.ro ≠ 0 →
        reclaim_step env it = (.skippedBusy, it)) ∧
      (it.bg.reserved = 0 → it.bg.pinned = 0 → it.bg.ro = 0 →
        it.bg.used ≠ 0 →
        should_reclaim_block_group env.bg_reclaim_threshold it.bg
          it.bg.length = false →
        reclaim_step env it = (.skippedThreshold, it))) ∧
    (∀ (it : ReclaimItem) (bg' : BlockGroup) (si' : SpaceInfo),
      it.bg.reserved = 0 → it.bg.pinned = 0 → it.bg.ro = 0 →
      it.bg.used ≠ 0 →
      should_reclaim_block_group env.bg_reclaim_threshold it.bg
        it.bg.length = true →
      env.needCleanerSleep = false →
      inc_block_group_ro env.cfg it.bg it.si false = .ok (bg', si') →
      bg'.ro = 1 ∧
      (env.relocate bg'.start = true →
        reclaim_step env it = (.relocated, ⟨bg', si'⟩)) ∧
      (env.relocate bg'.start = false →
        ∃ bg'' si'', reclaim_step env it = (.relocFailedDemoted, ⟨bg'', si''⟩) ∧
          bg''.ro = 0)) := by
  refine ⟨⟨?_, List.mergeSort_perm items reclaim_bgs_cmp, rfl⟩, ?_, ?_⟩
  · have h := @List.sorted_mergeSort ReclaimItem reclaim_bgs_cmp
      (fun a b c hab hbc => by
        simp only [reclaim_bgs_cmp, Nat.ble_eq] at *
        omega)
      (fun a b => by
        simp only [reclaim_bgs_cmp, Bool.or_eq_true, Nat.ble_eq]
        omega)
      items
    refine h.imp ?_
    intro a b hab
    simpa [reclaim_bgs_cmp, Nat.ble_eq] using hab
  · intro it
    constructor
    · intro h
      unfold reclaim_step
      rw [if_pos h]
    · intro h1 h2 h3 h4 h5
      unfold reclaim_step
      rw [if_neg (by simp [h1, h2, h3]), if_neg h4, if_pos (by simp [h5])]
  · intro it bg' si' h1 h2 h3 h4 h5 h6 hok
    have hro1 : bg'.ro = 1 := by
      have := (inc_block_group_ro_ok hok).2.1
      omega
    have hstep : reclaim_step env it =
        (if env.relocate bg'.start then (.relocated, ⟨bg', si'⟩)
         else
           let st := (btrfs_dec_block_group_ro env.cfg bg' si').getD (bg', si')
           (.relocFailedDemoted, ⟨st.1, st.2⟩)) := by
      unfold reclaim_step
      rw [if_neg (by simp [h1, h2, h3]), if_neg h4, if_neg (by simp [h5]),
          if_neg (by simp [h6]), hok]
    refine ⟨hro1, ?_, ?_⟩
    · intro hreloc
      rw [hstep, if_pos hreloc]
    · intro hreloc
      rw [hstep, if_neg (by simp [hreloc])]
      have hdec : btrfs_dec_block_group_ro env.cfg bg' si' =
          some ({ bg' with ro := bg'.ro - 1 },
                { si' with bytes_readonly := si'.bytes_readonly - ro_num_bytes bg' }) := by
        unfold btrfs_dec_block_group_ro
        rw [if_neg (by omega), if_pos (by omega), hz]
        simp
      rw [hdec]
      exact ⟨_, _, rfl, by simp [hro1]⟩

/-- Concrete reclaim environment for the witness: non-zoned, threshold 30
percent, relocation failing for every chunk. -/
def reclaimEnvFail : ReclaimEnv :=
  ⟨exampleCfg, 30, false, false, fun _ => false⟩

/-- Concrete underused candidate for the witness: the example group with
10 MiB used of 1 GiB. -/
def reclaimItemLow : ReclaimItem :=
  ⟨{ exampleBG with used := 10485760 },
   ⟨exampleFlags, 1073741824, 10485760, 0, 0, 0, 0, 0, 0, 0⟩⟩

/-- Witness for C8 at concrete inputs: on a one-candidate list the pass is
sorted trivially; a busy candidate is skipped; an accepted 10-MiB-used
candidate is elevated to read-only and demoted back when relocation
fails. -/
theorem C8_reclaim_pass_witness :
    reclaimEnvFail.cfg.zoned = false ∧
    List.Pairwise (fun a b => a.bg.used ≤ b.bg.used)
      ([reclaimItemLow].mergeSort reclaim_bgs_cmp) ∧
    (({ reclaimItemLow with
         bg := { reclaimItemLow.bg with reserved := 7 } } : ReclaimItem).bg.reserved ≠ 0 ∧
      reclaim_step reclaimEnvFail
        { reclaimItemLow with bg := { reclaimItemLow.bg with reserved := 7 } } =
        (.skippedBusy,
         { reclaimItemLow with bg := { reclaimItemLow.bg with reserved := 7 } })) ∧
    ∃ bg'' si'',
      reclaim_step reclaimEnvFail reclaimItemLow =
        (.relocFailedDemoted, ⟨bg'', si''⟩) ∧ bg''.ro = 0 := by
  obtain ⟨⟨hsort, -, -⟩, hskip, haccept⟩ :=
    C8_reclaim_pass reclaimEnvFail [reclaimItemLow] rfl
  have hbusy := (hskip { reclaimItemLow with
    bg := { reclaimItemLow.bg with reserved := 7 } }).1 (by left; decide)
  obtain ⟨-, -, hfail⟩ :=
    haccept reclaimItemLow
      { reclaimItemLow.bg with ro := 1 }
      { reclaimItemLow.si with bytes_readonly := ro_num_bytes reclaimItemLow.bg }
      (by decide) (by decide) (by decide) (by decide) (by decide) rfl (by rfl)
  exact ⟨rfl, hsort, ⟨by decide, hbusy⟩, hfail rfl⟩

/-- Entry of the block-group registry: the start offset and length of one
group (`ASSERT(block_group->length != 0)` guards insertion, so lengths are
positive in a well-formed registry). -/
structure BGEntry where
  start : Nat
  length : Nat
deriving DecidableEq, Repr

/-- The registry red-black tree, abstracted to its binary-search
structure: `rb_link_node` places a new node by descending on start
offsets, and the rebalancing of `rb_insert_color_cached` permutes the
shape while preserving the symmetric order, which is all the descent of
the search uses. -/
inductive BGTree
  | nil
  | node (l : BGTree) (g : BGEntry) (r : BGTree)
deriving DecidableEq, Repr

/-- Inorder listing of the registry. -/
def BGTree.toList : BGTree → List BGEntry
  | .nil => []
  | .node l g r => toList l ++ g :: toList r

/-- Embedding of `btrfs_add_block_group_cache` (block-group.c:179):
descend by start offset, fail with `EEXIST` on an equal start — the C
function unlocks and returns before linking, leaving the tree unchanged —
and link the new node at the reached leaf otherwise. -/
def btrfs_add_block_group_cache (t : BGTree) (g : BGEntry) :
    Except Errno BGTree :=
  match t with
  | .nil => .ok (.node .nil g .nil)
  | .node l c r =>
    if g.start < c.start then
      match btrfs_add_block_group_cache l g with
      | .ok l' => .ok (.node l' c r)
      | .error e => .error e
    else if c.start < g.start then
      match btrfs_add_block_group_cache r g with
      | .ok r' => .ok (.node l c r')
      | .error e => .error e
    else .error .EEXIST

/-- Embedding of `block_group_cache_tree_search` with `contains = 1`
(block-group.c:219): descend by start offset; at a node whose start is
below the address, return it if the address falls inside its inclusive
end `start + length - 1`, else continue right; an exact start match
returns the node. -/
def block_group_cache_tree_search_contains (t : BGTree) (bytenr : Nat) :
    Option BGEntry :=
  match t with
  | .nil => none
  | .node l c r =>
    if bytenr < c.start then block_group_cache_tree_search_contains l bytenr
    else if c.start < bytenr then
      if bytenr ≤ c.start + c.length - 1 then some c
      else block_group_cache_tree_search_contains r bytenr
    else some c

/-- Binary-search ordering of the registry tree on start offsets. -/
def BGTree.Ordered : BGTree → Prop
  | .nil => True
  | .node l c r =>
      (∀ g ∈ l.toList, g.start < c.start) ∧ (∀ g ∈ r.toList, c.start < g.start) ∧
      Ordered l ∧ Ordered r

instance BGTree.decOrdered : (t : BGTree) → Decidable (BGTree.Ordered t)
  | .nil => isTrue trivial
  | .node l c r =>
    haveI := decOrdered l
    haveI := decOrdered r
    inferInstanceAs (Decidable (_ ∧ _ ∧ _ ∧ _))

/-- Registered groups occupy pairwise disjoint address ranges (in inorder,
each group ends at or before the next begins). -/
def BGTree.Packed (t : BGTree) : Prop :=
  t.toList.Pairwise (fun a b => a.start + a.length ≤ b.start)

/-- Registered groups have nonzero length (the insertion `ASSERT`). -/
def BGTree.PosLen (t : BGTree) : Prop :=
  ∀ c ∈ t.toList, 0 < c.length

instance (t : BGTree) : Decidable (BGTree.Packed t) :=
  inferInstanceAs (Decidable (List.Pairwise _ _))

instance (t : BGTree) : Decidable (BGTree.PosLen t) :=
  inferInstanceAs (Decidable (∀ c ∈ t.toList, 0 < c.length))

/-- A group contains an address when the address falls inside its
half-open range. -/
def containsAddr (c : BGEntry) (a : Nat) : Prop :=
  c.start ≤ a ∧ a < c.start + c.length

instance (c : BGEntry) (a : Nat) : Decidable (containsAddr c a) :=
  inferInstanceAs (Decidable (_ ∧ _))

/-- Registry insertion either fails with `EEXIST` or produces a tree. -/
theorem btrfs_add_block_group_cache_total (t : BGTree) (g : BGEntry) :
    btrfs_add_block_group_cache t g = .error .EEXIST ∨
    ∃ t', btrfs_add_block_group_cache t g = .ok t' := by
  induction t with
  | nil => exact Or.inr ⟨_, rfl⟩
  | node l c r ihl ihr =>
    unfold btrfs_add_block_group_cache
    by_cases h1 : g.start < c.start
    · rw [if_pos h1]
      rcases ihl with h | ⟨l', hl'⟩
      · rw [h]; exact Or.inl rfl
      · rw [hl']; exact Or.inr ⟨_, rfl⟩
    · rw [if_neg h1]
      by_cases h2 : c.start < g.start
      · rw [if_pos h2]
        rcases ihr with h | ⟨r', hr'⟩
        · rw [h]; exact Or.inl rfl
        · rw [hr']; exact Or.inr ⟨_, rfl⟩
      · rw [if_neg h2]; exact Or.inl rfl

/-- Registry insertion fails with `EEXIST` exactly when a group with the
same start offset is already registered. -/
theorem btrfs_add_block_group_cache_eexist_iff (t : BGTree) (g : BGEntry)
    (hord : t.Ordered) :
    btrfs_add_block_group_cache t g = .error .EEXIST ↔
      ∃ c ∈ t.toList, c.start = g.start := by
  induction t with
  | nil => simp [btrfs_add_block_group_cache, BGTree.toList]
  | node l c r ihl ihr =>
    obtain ⟨hl, hr, hol, hor⟩ := hord
    unfold btrfs_add_block_group_cache
    by_cases h1 : g.start < c.start
    · rw [if_pos h1]
      have hiff := ihl hol
      constructor
      · intro h
        rcases btrfs_add_block_group_cache_total l g with hins | ⟨l', hins⟩
        · obtain ⟨d, hd, hds⟩ := hiff.mp hins
          exact ⟨d, by simp [BGTree.toList, hd], hds⟩
        · rw [hins] at h
          exact absurd h (by simp)
      · intro ⟨d, hd, hds⟩
        simp only [BGTree.toList, List.mem_append, List.mem_cons] at hd
        rcases hd with hd | hd | hd
        · rw [hiff.mpr ⟨d, hd, hds⟩]
        · exact absurd (hds ▸ h1) (by rw [hd]; omega)
        · exact absurd (hr d hd) (by omega)
    · rw [if_neg h1]
      by_cases h2 : c.start < g.start
      · rw [if_pos h2]
        have hiff := ihr hor
        constructor
        · intro h
          rcases btrfs_add_block_group_cache_total r g with hins | ⟨r', hins⟩
          · obtain ⟨d, hd, hds⟩ := hiff.mp hins
            exact ⟨d, by simp [BGTree.toList, hd], hds⟩
          · rw [hins] at h
            exact absurd h (by simp)
        · intro ⟨d, hd, hds⟩
          simp only [BGTree.toList, List.mem_append, List.mem_cons] at hd
          rcases hd with hd | hd | hd
          · exact absurd (hl d hd) (by omega)
          · exact absurd h2 (by rw [hd] at hds; omega)
          · rw [hiff.mpr ⟨d, hd, hds⟩]
      · rw [if_neg h2]
        have : c.start = g.start := by omega
        exact ⟨fun _ => ⟨c, by simp [BGTree.toList], this⟩, fun _ => rfl⟩

/-- Soundness of the containment search: a returned group is registered
and contains the address. -/
theorem search_contains_sound (t : BGTree) (hord : t.Ordered)
    (hlen : t.PosLen) (a : Nat) (c : BGEntry)
    (h : block_group_cache_tree_search_contains t a = some c) :
    c ∈ t.toList ∧ containsAddr c a := by
  induction t with
  | nil => exact absurd h (by simp [block_group_cache_tree_search_contains])
  | node l m r ihl ihr =>
    obtain ⟨hl, hr, hol, hor⟩ := hord
    have hlenl : l.PosLen := fun d hd => hlen d (by simp [BGTree.toList, hd])
    have hlenr : r.PosLen := fun d hd => hlen d (by simp [BGTree.toList, hd])
    have hlenm : 0 < m.length := hlen m (by simp [BGTree.toList])
    unfold block_group_cache_tree_search_contains at h
    by_cases h1 : a < m.start
    · rw [if_pos h1] at h
      obtain ⟨hmem, hcont⟩ := ihl hol hlenl h
      exact ⟨by simp [BGTree.toList, hmem], hcont⟩
    · rw [if_neg h1] at h
      by_cases h2 : m.start < a
      · rw [if_pos h2] at h
        by_cases h3 : a ≤ m.start + m.length - 1
        · rw [if_pos h3] at h
          obtain rfl := Option.some.inj h
          exact ⟨by simp [BGTree.toList], by omega, by omega⟩
        · rw [if_neg h3] at h
          obtain ⟨hmem, hcont⟩ := ihr hor hlenr h
          exact ⟨by simp [BGTree.toList, hmem], hcont⟩
      · rw [if_neg h2] at h
        obtain rfl := Option.some.inj h
        exact ⟨by simp [BGTree.toList], by omega, by omega⟩

/-- Completeness of the containment search: a registered group containing
the address is found. -/
theorem search_contains_complete (t : BGTree) (hord : t.Ordered)
    (hpack : t.Packed) (hlen : t.PosLen) (a : Nat) (c : BGEntry)
    (hmem : c ∈ t.toList) (hcont : containsAddr c a) :
    block_group_cache_tree_search_contains t a = some c := by
  induction t with
  | nil => exact absurd hmem (by simp [BGTree.toList])
  | node l m r ihl ihr =>
    obtain ⟨hl, hr, hol, hor⟩ := hord
    have hlenl : l.PosLen := fun d hd => hlen d (by simp [BGTree.toList, hd])
    have hlenr : r.PosLen := fun d hd => hlen d (by simp [BGTree.toList, hd])
    have hlenm : 0 < m.length := hlen m (by simp [BGTree.toList])
    have hpack' := hpack
    unfold BGTree.Packed BGTree.toList at hpack'
    rw [List.pairwise_append] at hpack'
    obtain ⟨hpl, hpmr, hcross⟩ := hpack'
    rw [List.pairwise_cons] at hpmr
    obtain ⟨hmr, hpr⟩ := hpmr
    obtain ⟨hca, hac⟩ := hcont
    simp only [BGTree.toList, List.mem_append, List.mem_cons] at hmem
    unfold block_group_cache_tree_search_contains
    rcases hmem with hmem | hmem | hmem
    · have hcm : c.start + c.length ≤ m.start :=
        hcross c hmem m (by simp)
      rw [if_pos (by omega)]
      exact ihl hol hpl hlenl hmem
    · subst hmem
      by_cases h2 : c.start < a
      · rw [if_neg (by omega), if_pos h2, if_pos (by omega)]
      · rw [if_neg (by omega)]
        have : ¬ c.start < a := h2
        rw [if_neg (by omega)]
    · have hmc : m.start + m.length ≤ c.start := hmr c hmem
      rw [if_neg (by omega), if_pos (by omega), if_neg (by omega)]
      exact ihr hor hpr hlenr hmem

/-- C9: registry insertion fails with the already-exists error exactly
when a group with the same start offset is registered (the C function
returns before linking, leaving the index unchanged) and succeeds
otherwise; the exact-containment lookup returns a group exactly when it is
registered and its half-open range contains the address — such a group is
unique — and not-found exactly when no registered group contains the
address. -/
theorem C9_registry_insert_lookup (t : BGTree)
    (hord : t.Ordered) (hpack : t.Packed) (hlen : t.PosLen) :
    (∀ g : BGEntry,
      (btrfs_add_block_group_cache t g = .error .EEXIST ↔
        ∃ c ∈ t.toList, c.start = g.start) ∧
      ((∃ c ∈ t.toList, c.start = g.start) ∨
        ∃ t', btrfs_add_block_group_cache t g = .ok t')) ∧
    (∀ (a : Nat) (c : BGEntry),
      block_group_cache_tree_search_contains t a = some c ↔
        (c ∈ t.toList ∧ containsAddr c a)) ∧
    (∀ (a : Nat) (c d : BGEntry),
      c ∈ t.toList → containsAddr c a → d ∈ t.toList → containsAddr d a →
      c = d) ∧
    (∀ a : Nat,
      block_group_cache_tree_search_contains t a = none ↔
        ∀ c ∈ t.toList, ¬ containsAddr c a) := by
  have hsearch : ∀ (a : Nat) (c : BGEntry),
      block_group_cache_tree_search_contains t a = some c ↔
        (c ∈ t.toList ∧ containsAddr c a) := by
    intro a c
    constructor
    · exact search_contains_sound t hord hlen a c
    · intro ⟨hmem, hcont⟩
      exact search_contains_complete t hord hpack hlen a c hmem hcont
  refine ⟨?_, hsearch, ?_, ?_⟩
  · intro g
    refine ⟨btrfs_add_block_group_cache_eexist_iff t g hord, ?_⟩
    rcases btrfs_add_block_group_cache_total t g with h | h
    · exact Or.inl ((btrfs_add_block_group_cache_eexist_iff t g hord).mp h)
    · exact Or.inr h
  · intro a c d hc hcc hd hdc
    have h1 := (hsearch a c).mpr ⟨hc, hcc⟩
    have h2 := (hsearch a d).mpr ⟨hd, hdc⟩
    rw [h1] at h2
    exact Option.some.inj h2
  · intro a
    constructor
    · intro h c hmem hcont
      rw [(hsearch a c).mpr ⟨hmem, hcont⟩] at h
      exact absurd h (by simp)
    · intro h
      cases hs : block_group_cache_tree_search_contains t a with
      | none => rfl
      | some c =>
        obtain ⟨hmem, hcont⟩ := (hsearch a c).mp hs
        exact absurd hcont (h c hmem)

/-- Concrete registry for the witness: three disjoint groups. -/
def exampleTree : BGTree :=
  .node (.node .nil ⟨65536, 100⟩ .nil) ⟨200000, 50⟩ (.node .nil ⟨300000, 25⟩ .nil)

/-- Witness for C9 at concrete inputs: inserting a group at an occupied
start fails, at a fresh start succeeds; lookups inside, at the edge of,
and outside the registered ranges behave as stated. -/
theorem C9_registry_insert_lookup_witness :
    (exampleTree.Ordered ∧ exampleTree.Packed ∧ exampleTree.PosLen) ∧
    btrfs_add_block_group_cache exampleTree ⟨200000, 10⟩ = .error .EEXIST ∧
    (∃ t', btrfs_add_block_group_cache exampleTree ⟨400000, 10⟩ = .ok t') ∧
    block_group_cache_tree_search_contains exampleTree 200049 =
      some ⟨200000, 50⟩ ∧
    block_group_cache_tree_search_contains exampleTree 200050 = none := by
  obtain ⟨hins, hsearch, -, hnone⟩ :=
    C9_registry_insert_lookup exampleTree (by decide) (by decide) (by decide)
  refine ⟨⟨by decide, by decide, by decide⟩, ?_, ?_, ?_, ?_⟩
  · exact (hins ⟨200000, 10⟩).1.mpr ⟨⟨200000, 50⟩, by decide, rfl⟩
  · rcases (hins ⟨400000, 10⟩).2 with h | h
    · exact absurd h (by decide)
    · exact h
  · exact (hsearch 200049 ⟨200000, 50⟩).mpr ⟨by decide, by decide, by decide⟩
  · exact (hnone 200050).mpr (by decide)

end BtrfsBG
